import Mathlib

/-!
Verification of the BlockDAO block data-access layer
(`blockchain/blockdao.go`): a shallow embedding of the key-value schema,
the read API, `Start`, and `putBlock` with its per-address index
bookkeeping (`putTransfers` / `putVotes`), together with proofs of the
behavioural properties of that code.

Modelling conventions:
- byte strings are `List Nat`; machine 64-bit integers are `Nat` with
  explicit reduction modulo `2 ^ 64` where the encoding wraps;
- the external key-value store (package `db`, whose source is not part of
  this repository) is modelled from its specification: a namespaced map
  with `Get`, direct `PutIfNotExists`, and an atomic batch of staged
  `Put` / `PutIfNotExists` operations; a `Get` backend failure is injected
  through an explicit failure set; a batch commit either applies all
  staged operations in order or fails leaving the store unchanged;
- `github.com/pkg/errors` semantics are kept: `errors.Wrap(nil, msg)` is
  `nil`, so wrapping is a map over `Option Err`;
- the external collaborators (`Block`, `Transfer`, `Vote`, the
  `iotxaddress.GetAddress` derivation) are opaque records / an oracle
  function, carrying exactly the data the DAO code reads from them.
-/

/-- Byte strings as lists of naturals. -/
abbrev Bytes := List Nat

/-- `byteutil.Uint64ToBytes` / `enc.MachineEndian.PutUint64`: 8-byte
little-endian encoding of a 64-bit integer. -/
def uint64ToBytes (n : Nat) : Bytes :=
  [n % 256, n / 256 % 256, n / 256 ^ 2 % 256, n / 256 ^ 3 % 256,
   n / 256 ^ 4 % 256, n / 256 ^ 5 % 256, n / 256 ^ 6 % 256, n / 256 ^ 7 % 256]

/-- `enc.MachineEndian.Uint64`: decode the first 8 bytes, little-endian. -/
def machineUint64 (v : Bytes) : Nat :=
  v.getD 0 0 + v.getD 1 0 * 256 + v.getD 2 0 * 256 ^ 2 + v.getD 3 0 * 256 ^ 3 +
  v.getD 4 0 * 256 ^ 4 + v.getD 5 0 * 256 ^ 5 + v.getD 6 0 * 256 ^ 6 + v.getD 7 0 * 256 ^ 7

/-- Bytes of a Go string (addresses are ASCII strings used as key material). -/
def strBytes (s : String) : Bytes := s.data.map Char.toNat

/-- `hash.ZeroHash32B`. -/
def zeroHash32B : Bytes := List.replicate 32 0

/-- Go `copy(hash[:], value)` into a zeroed 32-byte array: take at most 32
bytes of `value` and keep the remaining bytes zero. -/
def copyHash32 (v : Bytes) : Bytes :=
  v.take 32 ++ List.replicate (32 - v.length) 0

-- Namespace identifiers (blockdao.go constants).
def blockNS : String := "blocks"
def blockHashHeightMappingNS : String := "hash<->height"
def blockTransferBlockMappingNS : String := "transfer<->block"
def blockVoteBlockMappingNS : String := "vote<->block"
def blockAddressTransferMappingNS : String := "address<->transfer"
def blockAddressTransferCountMappingNS : String := "address<->transfercount"
def blockAddressVoteMappingNS : String := "address<->vote"
def blockAddressVoteCountMappingNS : String := "address<->votecount"

-- Key prefixes and singleton keys (blockdao.go package variables).
def hashPrefixBytes : Bytes := strBytes "hash."
def transferPrefixBytes : Bytes := strBytes "transfer."
def votePrefixBytes : Bytes := strBytes "vote."
def heightPrefixBytes : Bytes := strBytes "height."
def topHeightKey : Bytes := strBytes "top-height"
def totalTransfersKey : Bytes := strBytes "total-transfers"
def totalVotesKey : Bytes := strBytes "total-votes"
def transferFromPrefixBytes : Bytes := strBytes "transfer-from."
def transferToPrefixBytes : Bytes := strBytes "transfer-to."
def voteFromPrefixBytes : Bytes := strBytes "vote-from."
def voteToPrefixBytes : Bytes := strBytes "vote-to."

/-- Errors of the DAO and of the underlying store.  `backend` is an
injected KV I/O failure, `notExist` is `db.ErrNotExist` (also what `Get`
reports for an absent key), `alreadyExist` is `db.ErrAlreadyExist`,
`msg` is `errors.New`, `wrapped` is `errors.Wrap` applied to a non-nil
error, and `commitFail` is a batch-commit rejection. -/
inductive Err where
  | backend : Err
  | notExist : Err
  | alreadyExist : Err
  | serializeFail : Err
  | commitFail : Err
  | msg : String → Err
  | wrapped : Err → String → Err
deriving DecidableEq, Repr

/-- `errors.Wrap` / `errors.Wrapf`: wrapping `nil` yields `nil`. -/
def errWrap (e : Option Err) (m : String) : Option Err :=
  e.map (fun e0 => Err.wrapped e0 m)

/-- One staged batch mutation (`db.KVStoreBatch` entry). -/
inductive BatchOp where
  | put : String → Bytes → Bytes → BatchOp
  | putIfNotExists : String → Bytes → Bytes → BatchOp
deriving DecidableEq, Repr

/-- A batch is the ordered list of staged mutations. -/
abbrev Batch := List BatchOp

/-- Namespace and key a staged operation writes to. -/
def opTarget : BatchOp → String × Bytes
  | .put ns key _ => (ns, key)
  | .putIfNotExists ns key _ => (ns, key)

/-- Value a staged operation writes. -/
def opValue : BatchOp → Bytes
  | .put _ _ v => v
  | .putIfNotExists _ _ v => v

/-- Lookup in an association list keyed by (namespace, key); first match
wins, and the write path keeps keys unique. -/
def lookupKV : List ((String × Bytes) × Bytes) → String → Bytes → Option Bytes
  | [], _, _ => none
  | (k, v) :: rest, ns, key => if k = (ns, key) then some v else lookupKV rest ns key

/-- Write to an association list: replace the existing binding or append. -/
def putKV : List ((String × Bytes) × Bytes) → String → Bytes → Bytes →
    List ((String × Bytes) × Bytes)
  | [], ns, key, v => [((ns, key), v)]
  | (k, w) :: rest, ns, key, v =>
    if k = (ns, key) then (k, v) :: rest else (k, w) :: putKV rest ns key v

/-- The key-value store (`db.KVStore`), modelled from its specification:
`entries` is the persisted (namespace, key) → value map, and `failures`
is the set of (namespace, key) pairs on which a read reports a backend
I/O failure. -/
structure Store where
  entries : List ((String × Bytes) × Bytes)
  failures : List (String × Bytes)
deriving DecidableEq, Repr

/-- Pure lookup of a stored value. -/
def Store.lookup (s : Store) (ns : String) (key : Bytes) : Option Bytes :=
  lookupKV s.entries ns key

/-- `KVStore.Get`: value plus error.  An injected failure reports a
backend error; an absent key reports `db.ErrNotExist`; a present key
returns its value. -/
def Store.get (s : Store) (ns : String) (key : Bytes) : Bytes × Option Err :=
  if (ns, key) ∈ s.failures then ([], some Err.backend)
  else
    match s.lookup ns key with
    | some v => (v, none)
    | none => ([], some Err.notExist)

/-- Direct (non-batched) `KVStore.PutIfNotExists`, used by `Start`. -/
def Store.putIfNotExists (s : Store) (ns : String) (key : Bytes) (v : Bytes) :
    Store × Option Err :=
  if (ns, key) ∈ s.failures then (s, some Err.backend)
  else
    match s.lookup ns key with
    | some _ => (s, some Err.alreadyExist)
    | none => (⟨putKV s.entries ns key v, s.failures⟩, none)

/-- Apply one staged operation at commit time.  A staged conditional
insert whose key is already present is skipped silently (the surrounding
writes still commit). -/
def applyOp (s : Store) : BatchOp → Store
  | .put ns key v => ⟨putKV s.entries ns key v, s.failures⟩
  | .putIfNotExists ns key v =>
    match s.lookup ns key with
    | some _ => s
    | none => ⟨putKV s.entries ns key v, s.failures⟩

/-- Atomic application of a whole batch, in staging order. -/
def applyBatch (s : Store) (b : Batch) : Store := b.foldl applyOp s

/-- `blockchain.Transfer` as the DAO reads it: its 32-byte hash and its
two party addresses. -/
structure Transfer where
  hash : Bytes
  Sender : String
  Recipient : String
deriving DecidableEq, Repr

/-- `blockchain.Vote` as the DAO reads it: its 32-byte hash and the two
public keys from which addresses are derived. -/
structure Vote where
  hash : Bytes
  SelfPubkey : Bytes
  VotePubkey : Bytes
deriving DecidableEq, Repr

/-- `blockchain.Block` as the DAO reads it: height, content hash
(`HashBlock()`), serialization result (`none` models a `Serialize`
failure), and the ordered transfer and vote lists. -/
structure Block where
  height : Nat
  hash : Bytes
  serialized : Option Bytes
  Transfers : List Transfer
  Votes : List Vote
deriving DecidableEq, Repr

/-- `getBlockHash`: read `"height." ‖ h` from the hash<->height
namespace.  Note the faithful `errors.Wrap(err, ...)` on the
length-mismatch branch: `err` is nil there, so the wrap is nil too. -/
def getBlockHash (dao : Store) (height : Nat) : Bytes × Option Err :=
  let key := heightPrefixBytes ++ uint64ToBytes height
  let r := dao.get blockHashHeightMappingNS key
  match r.2 with
  | some e => (zeroHash32B, errWrap (some e) "failed to get block hash")
  | none =>
    if zeroHash32B.length ≠ r.1.length then (zeroHash32B, errWrap none "blockhash is broken")
    else (copyHash32 r.1, none)

/-- `getBlockHeight`: read `"hash." ‖ H`. -/
def getBlockHeight (dao : Store) (h : Bytes) : Nat × Option Err :=
  let key := hashPrefixBytes ++ h
  let r := dao.get blockHashHeightMappingNS key
  match r.2 with
  | some e => (0, errWrap (some e) "failed to get block height")
  | none =>
    if r.1.length = 0 then
      (0, errWrap (some Err.notExist) "height missing for block")
    else (machineUint64 r.1, none)

/-- `getTransferCountBySenderAddress`: any `Get` error is swallowed into
`(0, nil)`; a present-but-empty value is reported broken. -/
def getTransferCountBySenderAddress (dao : Store) (address : String) : Nat × Option Err :=
  let key := transferFromPrefixBytes ++ strBytes address
  let r := dao.get blockAddressTransferCountMappingNS key
  match r.2 with
  | some _ => (0, none)
  | none =>
    if r.1.length = 0 then (0, some (Err.msg "count of transfers as recipient is broken"))
    else (machineUint64 r.1, none)

/-- `getTransferCountByRecipientAddress`. -/
def getTransferCountByRecipientAddress (dao : Store) (address : String) : Nat × Option Err :=
  let key := transferToPrefixBytes ++ strBytes address
  let r := dao.get blockAddressTransferCountMappingNS key
  match r.2 with
  | some _ => (0, none)
  | none =>
    if r.1.length = 0 then (0, some (Err.msg "count of transfers as recipient is broken"))
    else (machineUint64 r.1, none)

/-- `getVoteCountBySenderAddress`. -/
def getVoteCountBySenderAddress (dao : Store) (address : String) : Nat × Option Err :=
  let key := voteFromPrefixBytes ++ strBytes address
  let r := dao.get blockAddressVoteCountMappingNS key
  match r.2 with
  | some _ => (0, none)
  | none =>
    if r.1.length = 0 then (0, some (Err.msg "count of votes as sender is broken"))
    else (machineUint64 r.1, none)

/-- `getVoteCountByRecipientAddress`. -/
def getVoteCountByRecipientAddress (dao : Store) (address : String) : Nat × Option Err :=
  let key := voteToPrefixBytes ++ strBytes address
  let r := dao.get blockAddressVoteCountMappingNS key
  match r.2 with
  | some _ => (0, none)
  | none =>
    if r.1.length = 0 then (0, some (Err.msg "count of votes as recipient is broken"))
    else (machineUint64 r.1, none)

/-- Loop body of `getTransfersByAddress`: iterate sequence numbers `i`
upward, `fuel` iterations remaining, accumulating `res` in order; on an
error the partial `res` is returned alongside it. -/
def getTransfersByAddressLoop (dao : Store) (address : String) (pfx : Bytes) :
    Nat → Nat → List Bytes → List Bytes × Option Err
  | 0, _, res => (res, none)
  | fuel + 1, i, res =>
    let key := pfx ++ strBytes address ++ uint64ToBytes i
    let r := dao.get blockAddressTransferMappingNS key
    match r.2 with
    | some e => (res, errWrap (some e) "failed to get transfer for index")
    | none =>
      if r.1.length = 0 then (res, errWrap (some Err.notExist) "transfer for index missing")
      else getTransfersByAddressLoop dao address pfx fuel (i + 1) (res ++ [copyHash32 r.1])

/-- `getTransfersByAddress`. -/
def getTransfersByAddress (dao : Store) (address : String) (count : Nat) (pfx : Bytes) :
    List Bytes × Option Err :=
  getTransfersByAddressLoop dao address pfx count 0 []

/-- `getTransfersBySenderAddress`: on any error the returned list is nil. -/
def getTransfersBySenderAddress (dao : Store) (address : String) : List Bytes × Option Err :=
  let c := getTransferCountBySenderAddress dao address
  match c.2 with
  | some e => ([], errWrap (some e) "for sender")
  | none =>
    let r := getTransfersByAddress dao address c.1 transferFromPrefixBytes
    match r.2 with
    | some e => ([], some e)
    | none => (r.1, none)

/-- `getTransfersByRecipientAddress`. -/
def getTransfersByRecipientAddress (dao : Store) (address : String) : List Bytes × Option Err :=
  let c := getTransferCountByRecipientAddress dao address
  match c.2 with
  | some e => ([], errWrap (some e) "for recipient")
  | none =>
    let r := getTransfersByAddress dao address c.1 transferToPrefixBytes
    match r.2 with
    | some e => ([], some e)
    | none => (r.1, none)

/-- Loop body of `getVotesByAddress` (vote-index namespace). -/
def getVotesByAddressLoop (dao : Store) (address : String) (pfx : Bytes) :
    Nat → Nat → List Bytes → List Bytes × Option Err
  | 0, _, res => (res, none)
  | fuel + 1, i, res =>
    let key := pfx ++ strBytes address ++ uint64ToBytes i
    let r := dao.get blockAddressVoteMappingNS key
    match r.2 with
    | some e => (res, errWrap (some e) "failed to get vote for index")
    | none =>
      if r.1.length = 0 then (res, errWrap (some Err.notExist) "vote for index missing")
      else getVotesByAddressLoop dao address pfx fuel (i + 1) (res ++ [copyHash32 r.1])

/-- `getVotesByAddress`. -/
def getVotesByAddress (dao : Store) (address : String) (count : Nat) (pfx : Bytes) :
    List Bytes × Option Err :=
  getVotesByAddressLoop dao address pfx count 0 []

/-- `getVotesBySenderAddress`: on any error the returned list is nil. -/
def getVotesBySenderAddress (dao : Store) (address : String) : List Bytes × Option Err :=
  let c := getVoteCountBySenderAddress dao address
  match c.2 with
  | some e => ([], errWrap (some e) "to get votecount for sender")
  | none =>
    let r := getVotesByAddress dao address c.1 voteFromPrefixBytes
    match r.2 with
    | some e => ([], errWrap (some e) "to get votes for sender")
    | none => (r.1, none)

/-- `getVotesByRecipientAddress`. -/
def getVotesByRecipientAddress (dao : Store) (address : String) : List Bytes × Option Err :=
  let c := getVoteCountByRecipientAddress dao address
  match c.2 with
  | some e => ([], errWrap (some e) "to get votecount for recipient")
  | none =>
    let r := getVotesByAddress dao address c.1 voteToPrefixBytes
    match r.2 with
    | some e => ([], errWrap (some e) "to get votes for recipient")
    | none => (r.1, none)

/-- `getBlockchainHeight`: singleton read of `top-height`. -/
def getBlockchainHeight (dao : Store) : Nat × Option Err :=
  let r := dao.get blockNS topHeightKey
  match r.2 with
  | some e => (0, errWrap (some e) "failed to get top height")
  | none =>
    if r.1.length = 0 then (0, errWrap (some Err.notExist) "blockchain height missing")
    else (machineUint64 r.1, none)

/-- `getTotalTransfers`: singleton read of `total-transfers`. -/
def getTotalTransfers (dao : Store) : Nat × Option Err :=
  let r := dao.get blockNS totalTransfersKey
  match r.2 with
  | some e => (0, errWrap (some e) "failed to get total transfers")
  | none =>
    if r.1.length = 0 then (0, errWrap (some Err.notExist) "total transfers missing")
    else (machineUint64 r.1, none)

/-- `getTotalVotes`: singleton read of `total-votes`. -/
def getTotalVotes (dao : Store) : Nat × Option Err :=
  let r := dao.get blockNS totalVotesKey
  match r.2 with
  | some e => (0, errWrap (some e) "failed to get total votes")
  | none =>
    if r.1.length = 0 then (0, errWrap (some Err.notExist) "total votes missing")
    else (machineUint64 r.1, none)

/-- `Start` (the lifecycle child start is outside this model): seed the
three singleton counters with eight zero bytes via conditional inserts.
An `ErrAlreadyExist` on the first key returns success immediately; an
error on the second or third key — `ErrAlreadyExist` included — is
wrapped and returned. -/
def Start (dao : Store) : Store × Option Err :=
  let r1 := dao.putIfNotExists blockNS topHeightKey (List.replicate 8 0)
  match r1.2 with
  | some e =>
    if e = Err.alreadyExist then (r1.1, none)
    else (r1.1, errWrap (some e) "failed to write initial value for top height")
  | none =>
    let r2 := r1.1.putIfNotExists blockNS totalTransfersKey (List.replicate 8 0)
    match r2.2 with
    | some e => (r2.1, errWrap (some e) "failed to write initial value for total transfers")
    | none =>
      let r3 := r2.1.putIfNotExists blockNS totalVotesKey (List.replicate 8 0)
      match r3.2 with
      | some e => (r3.1, errWrap (some e) "failed to write initial value for total votes")
      | none => (r3.1, none)

/-- Loop of `putTransfers`: per transfer, read the on-disk sender and
recipient counters, adjust by the in-memory delta maps, stage the index
entry (conditional insert) and the counter bump (plain put). -/
def putTransfersLoop (dao : Store) :
    List Transfer → (String → Option Nat) → (String → Option Nat) → Batch →
    Except Err Batch
  | [], _, _, batch => .ok batch
  | t :: ts, sd, rd, batch =>
    let cs := getTransferCountBySenderAddress dao t.Sender
    match cs.2 with
    | some e => .error (Err.wrapped e "for sender")
    | none =>
      let sc := match sd t.Sender with
        | some delta => cs.1 + delta
        | none => cs.1
      let sd' : String → Option Nat := fun x =>
        if x = t.Sender then
          match sd t.Sender with
          | some delta => some (delta + 1)
          | none => some 1
        else sd x
      let senderKey := transferFromPrefixBytes ++ strBytes t.Sender ++ uint64ToBytes sc
      let senderCountKey := transferFromPrefixBytes ++ strBytes t.Sender
      let batch1 := batch ++
        [BatchOp.putIfNotExists blockAddressTransferMappingNS senderKey t.hash,
         BatchOp.put blockAddressTransferCountMappingNS senderCountKey (uint64ToBytes (sc + 1))]
      let cr := getTransferCountByRecipientAddress dao t.Recipient
      match cr.2 with
      | some e => .error (Err.wrapped e "for recipient")
      | none =>
        let rc := match rd t.Recipient with
          | some delta => cr.1 + delta
          | none => cr.1
        let rd' : String → Option Nat := fun x =>
          if x = t.Recipient then
            match rd t.Recipient with
            | some delta => some (delta + 1)
            | none => some 1
          else rd x
        let recipientKey := transferToPrefixBytes ++ strBytes t.Recipient ++ uint64ToBytes rc
        let recipientCountKey := transferToPrefixBytes ++ strBytes t.Recipient
        let batch2 := batch1 ++
          [BatchOp.putIfNotExists blockAddressTransferMappingNS recipientKey t.hash,
           BatchOp.put blockAddressTransferCountMappingNS recipientCountKey
             (uint64ToBytes (rc + 1))]
        putTransfersLoop dao ts sd' rd' batch2

/-- `putTransfers`: fresh delta maps, then the loop. -/
def putTransfers (dao : Store) (blk : Block) (batch : Batch) : Except Err Batch :=
  putTransfersLoop dao blk.Transfers (fun _ => none) (fun _ => none) batch

/-- Loop of `putVotes`: like `putTransfers`, with the sender and
recipient addresses obtained from the external derivation oracle. -/
def putVotesLoop (derive : Bytes → Option String) (dao : Store) :
    List Vote → (String → Option Nat) → (String → Option Nat) → Batch →
    Except Err Batch
  | [], _, _, batch => .ok batch
  | v :: vs, sd, rd, batch =>
    match derive v.SelfPubkey with
    | none => .error (Err.msg "to get sender address for pubkey")
    | some sender =>
      match derive v.VotePubkey with
      | none => .error (Err.msg "to get recipient address for pubkey")
      | some recipient =>
        let cs := getVoteCountBySenderAddress dao sender
        match cs.2 with
        | some e => .error (Err.wrapped e "for sender")
        | none =>
          let sc := match sd sender with
            | some delta => cs.1 + delta
            | none => cs.1
          let sd' : String → Option Nat := fun x =>
            if x = sender then
              match sd sender with
              | some delta => some (delta + 1)
              | none => some 1
            else sd x
          let senderKey := voteFromPrefixBytes ++ strBytes sender ++ uint64ToBytes sc
          let senderCountKey := voteFromPrefixBytes ++ strBytes sender
          let batch1 := batch ++
            [BatchOp.putIfNotExists blockAddressVoteMappingNS senderKey v.hash,
             BatchOp.put blockAddressVoteCountMappingNS senderCountKey (uint64ToBytes (sc + 1))]
          let cr := getVoteCountByRecipientAddress dao recipient
          match cr.2 with
          | some e => .error (Err.wrapped e "for recipient")
          | none =>
            let rc := match rd recipient with
              | some delta => cr.1 + delta
              | none => cr.1
            let rd' : String → Option Nat := fun x =>
              if x = recipient then
                match rd recipient with
                | some delta => some (delta + 1)
                | none => some 1
              else rd x
            let recipientKey := voteToPrefixBytes ++ strBytes recipient ++ uint64ToBytes rc
            let recipientCountKey := voteToPrefixBytes ++ strBytes recipient
            let batch2 := batch1 ++
              [BatchOp.putIfNotExists blockAddressVoteMappingNS recipientKey v.hash,
               BatchOp.put blockAddressVoteCountMappingNS recipientCountKey
                 (uint64ToBytes (rc + 1))]
            putVotesLoop derive dao vs sd' rd' batch2

/-- `putVotes`. -/
def putVotes (derive : Bytes → Option String) (dao : Store) (blk : Block) (batch : Batch) :
    Except Err Batch :=
  putVotesLoop derive dao blk.Votes (fun _ => none) (fun _ => none) batch

/-- `putBlock`: stage every mutation of the block and of its secondary
indexes into one batch, then commit it atomically.  `commitOk` injects a
batch-commit failure; every error path returns before the commit, so the
store only changes when the commit succeeds. -/
def putBlock (derive : Bytes → Option String) (dao : Store) (blk : Block)
    (commitOk : Bool) : Store × Option Err :=
  let height := uint64ToBytes blk.height
  match blk.serialized with
  | none => (dao, errWrap (some Err.serializeFail) "failed to serialize block")
  | some serialized =>
    let h := blk.hash
    let batch : Batch :=
      [BatchOp.putIfNotExists blockNS h serialized,
       BatchOp.put blockHashHeightMappingNS (hashPrefixBytes ++ h) height,
       BatchOp.put blockHashHeightMappingNS (heightPrefixBytes ++ height) h]
    let rTop := dao.get blockNS topHeightKey
    match rTop.2 with
    | some e => (dao, errWrap (some e) "failed to get top height")
    | none =>
      let topHeight := machineUint64 rTop.1
      let batch := if blk.height > topHeight then
          batch ++ [BatchOp.put blockNS topHeightKey height]
        else batch
      let rT := dao.get blockNS totalTransfersKey
      match rT.2 with
      | some e => (dao, errWrap (some e) "failed to get total transfers")
      | none =>
        let totalTransfers := machineUint64 rT.1 + blk.Transfers.length
        let batch := batch ++
          [BatchOp.put blockNS totalTransfersKey (uint64ToBytes totalTransfers)]
        let rV := dao.get blockNS totalVotesKey
        match rV.2 with
        | some e => (dao, errWrap (some e) "failed to get total votes")
        | none =>
          let totalVotes := machineUint64 rV.1 + blk.Votes.length
          let batch := batch ++
            [BatchOp.put blockNS totalVotesKey (uint64ToBytes totalVotes)]
          let batch := batch ++ blk.Transfers.map (fun t =>
            BatchOp.put blockTransferBlockMappingNS (transferPrefixBytes ++ t.hash) h)
          let batch := batch ++ blk.Votes.map (fun v =>
            BatchOp.put blockVoteBlockMappingNS (votePrefixBytes ++ v.hash) h)
          match putTransfers dao blk batch with
          | .error e => (dao, some e)
          | .ok batch2 =>
            match putVotes derive dao blk batch2 with
            | .error e => (dao, some e)
            | .ok batch3 =>
              if commitOk then (applyBatch dao batch3, none)
              else (dao, some Err.commitFail)

/-- A sequence of `putBlock` calls, committing each; stop at the first
error. -/
def putChain (derive : Bytes → Option String) : List Block → Store → Store × Option Err
  | [], s => (s, none)
  | b :: bs, s =>
    let r := putBlock derive s b true
    match r.2 with
    | none => putChain derive bs r.1
    | some e => (r.1, some e)

/-- The empty store. -/
def emptyStore : Store := ⟨[], []⟩

/-- A freshly started store: `Start` on the empty store. -/
def startedStore : Store := (Start emptyStore).1

/-! ### Basic lemmas about the encoding and the store -/

theorem machineUint64_uint64ToBytes (n : Nat) : machineUint64 (uint64ToBytes n) = n % 2 ^ 64 := by
  simp only [machineUint64, uint64ToBytes, List.getD]
  norm_num [List.getElem?_cons]
  omega

theorem uint64ToBytes_length (n : Nat) : (uint64ToBytes n).length = 8 := rfl

theorem uint64ToBytes_ne_nil (n : Nat) : uint64ToBytes n ≠ [] := by
  simp [uint64ToBytes]

theorem uint64ToBytes_inj {a b : Nat} (ha : a < 2 ^ 64) (hb : b < 2 ^ 64)
    (h : uint64ToBytes a = uint64ToBytes b) : a = b := by
  have := congrArg machineUint64 h
  rwa [machineUint64_uint64ToBytes, machineUint64_uint64ToBytes,
    Nat.mod_eq_of_lt ha, Nat.mod_eq_of_lt hb] at this

theorem charToNat_inj {a b : Char} (h : a.toNat = b.toNat) : a = b := by
  have h2 := congrArg Char.ofNat h
  rwa [Char.ofNat_toNat, Char.ofNat_toNat] at h2

theorem strBytes_inj {s t : String} (h : strBytes s = strBytes t) : s = t := by
  cases s with
  | mk ds =>
    cases t with
    | mk dt =>
      have : ds = dt := by
        have := List.map_injective_iff.2 (fun a b hab => charToNat_inj hab) h
        exact this
      exact congrArg String.mk this

theorem lookupKV_putKV_self (l : List ((String × Bytes) × Bytes)) (ns : String)
    (key : Bytes) (v : Bytes) : lookupKV (putKV l ns key v) ns key = some v := by
  induction l with
  | nil => simp [putKV, lookupKV]
  | cons e rest ih =>
    obtain ⟨k, w⟩ := e
    by_cases h : k = (ns, key)
    · simp [putKV, h, lookupKV]
    · simp [putKV, h, lookupKV, ih]

theorem lookupKV_putKV_ne (l : List ((String × Bytes) × Bytes)) {ns ns' : String}
    {key key' : Bytes} (v : Bytes) (h : (ns', key') ≠ (ns, key)) :
    lookupKV (putKV l ns key v) ns' key' = lookupKV l ns' key' := by
  induction l with
  | nil =>
    simp only [putKV, lookupKV]
    rw [if_neg (fun he => h (by simpa using he.symm))]
  | cons e rest ih =>
    obtain ⟨k, w⟩ := e
    by_cases hk : k = (ns, key)
    · subst hk
      simp only [putKV, if_pos rfl, lookupKV]
      rw [if_neg (fun he => h (by simpa using he.symm)), if_neg (fun he => h (by simpa using he.symm))]
    · simp [putKV, hk, lookupKV, ih]

theorem mem_putKV {l : List ((String × Bytes) × Bytes)} {ns : String} {key : Bytes}
    {v : Bytes} {e : (String × Bytes) × Bytes} (h : e ∈ putKV l ns key v) :
    e ∈ l ∨ e.2 = v := by
  induction l with
  | nil =>
    simp [putKV] at h
    subst h
    exact Or.inr rfl
  | cons f rest ih =>
    obtain ⟨k, w⟩ := f
    by_cases hk : k = (ns, key)
    · simp [putKV, hk] at h
      rcases h with h | h
      · exact Or.inr (by simp [h])
      · exact Or.inl (List.mem_cons_of_mem _ h)
    · simp [putKV, hk] at h
      rcases h with h | h
      · exact Or.inl (by simp [h])
      · rcases ih h with h2 | h2
        · exact Or.inl (List.mem_cons_of_mem _ h2)
        · exact Or.inr h2

theorem applyOp_failures (s : Store) (op : BatchOp) : (applyOp s op).failures = s.failures := by
  cases op with
  | put ns key v => rfl
  | putIfNotExists ns key v =>
    simp only [applyOp]
    split <;> rfl

theorem applyBatch_failures (s : Store) (b : Batch) : (applyBatch s b).failures = s.failures := by
  induction b generalizing s with
  | nil => rfl
  | cons op rest ih =>
    simp only [applyBatch, List.foldl_cons]
    rw [show List.foldl applyOp (applyOp s op) rest = applyBatch (applyOp s op) rest from rfl,
      ih, applyOp_failures]

theorem applyBatch_append (s : Store) (b1 b2 : Batch) :
    applyBatch s (b1 ++ b2) = applyBatch (applyBatch s b1) b2 := by
  simp [applyBatch, List.foldl_append]

theorem lookup_applyOp_ne (s : Store) (op : BatchOp) {ns : String} {key : Bytes}
    (h : opTarget op ≠ (ns, key)) : (applyOp s op).lookup ns key = s.lookup ns key := by
  cases op with
  | put ns0 key0 v =>
    simp only [opTarget] at h
    simp only [applyOp, Store.lookup]
    exact lookupKV_putKV_ne _ _ (fun he => h he.symm)
  | putIfNotExists ns0 key0 v =>
    simp only [opTarget] at h
    simp only [applyOp]
    split
    · rfl
    · simp only [Store.lookup]
      exact lookupKV_putKV_ne _ _ (fun he => h he.symm)

theorem lookup_applyBatch_ne (s : Store) (b : Batch) {ns : String} {key : Bytes}
    (h : ∀ op ∈ b, opTarget op ≠ (ns, key)) :
    (applyBatch s b).lookup ns key = s.lookup ns key := by
  induction b generalizing s with
  | nil => rfl
  | cons op rest ih =>
    simp only [applyBatch, List.foldl_cons]
    rw [show List.foldl applyOp (applyOp s op) rest = applyBatch (applyOp s op) rest from rfl,
      ih _ (fun o ho => h o (List.mem_cons_of_mem _ ho)),
      lookup_applyOp_ne s op (h op (List.mem_cons_self _ _))]

theorem lookup_applyOp_put_self (s : Store) (ns : String) (key : Bytes) (v : Bytes) :
    (applyOp s (.put ns key v)).lookup ns key = some v := by
  simp [applyOp, Store.lookup, lookupKV_putKV_self]

theorem lookup_applyOp_cond_none (s : Store) {ns : String} {key : Bytes} (v : Bytes)
    (h : s.lookup ns key = none) :
    (applyOp s (.putIfNotExists ns key v)).lookup ns key = some v := by
  simp only [applyOp]
  rw [h]
  simp only [Store.lookup]
  exact lookupKV_putKV_self _ _ _ _

theorem lookup_applyOp_cond_some (s : Store) {ns : String} {key : Bytes} {w : Bytes} (v : Bytes)
    (h : s.lookup ns key = some w) : applyOp s (.putIfNotExists ns key v) = s := by
  simp [applyOp, h]

theorem lookup_applyOp_isSome (s : Store) (op : BatchOp) {ns : String} {key : Bytes}
    (h : (s.lookup ns key).isSome) : ((applyOp s op).lookup ns key).isSome := by
  by_cases ht : opTarget op = (ns, key)
  · cases op with
    | put ns0 key0 v =>
      simp only [opTarget] at ht
      cases ht
      simp [lookup_applyOp_put_self]
    | putIfNotExists ns0 key0 v =>
      simp only [opTarget] at ht
      cases ht
      simp only [applyOp]
      split
      · exact h
      · simp [Store.lookup, lookupKV_putKV_self]
  · rw [lookup_applyOp_ne s op ht]
    exact h

theorem lookup_applyBatch_isSome (s : Store) (b : Batch) {ns : String} {key : Bytes}
    (h : (s.lookup ns key).isSome) : ((applyBatch s b).lookup ns key).isSome := by
  induction b generalizing s with
  | nil => exact h
  | cons op rest ih =>
    simp only [applyBatch, List.foldl_cons]
    exact ih _ (lookup_applyOp_isSome s op h)

/-- Values stored in a store are all nonempty. -/
abbrev NoEmptyVals (s : Store) : Prop := ∀ e ∈ s.entries, e.2 ≠ ([] : Bytes)

theorem noEmptyVals_applyOp {s : Store} (op : BatchOp) (hs : NoEmptyVals s)
    (hv : opValue op ≠ []) : NoEmptyVals (applyOp s op) := by
  cases op with
  | put ns key v =>
    intro e he
    rcases mem_putKV he with h | h
    · exact hs e h
    · rw [h]; exact hv
  | putIfNotExists ns key v =>
    simp only [applyOp]
    split
    · exact hs
    · intro e he
      rcases mem_putKV he with h | h
      · exact hs e h
      · rw [h]; exact hv

theorem noEmptyVals_applyBatch {s : Store} (b : Batch) (hs : NoEmptyVals s)
    (hv : ∀ op ∈ b, opValue op ≠ []) : NoEmptyVals (applyBatch s b) := by
  induction b generalizing s with
  | nil => exact hs
  | cons op rest ih =>
    simp only [applyBatch, List.foldl_cons]
    exact ih (noEmptyVals_applyOp op hs (hv op (List.mem_cons_self _ _)))
      (fun o ho => hv o (List.mem_cons_of_mem _ ho))

theorem store_get_of_lookup_some {s : Store} {ns : String} {key : Bytes} {v : Bytes}
    (hf : s.failures = []) (h : s.lookup ns key = some v) : s.get ns key = (v, none) := by
  simp [Store.get, hf, h]

/-! ### Concrete example inputs used by witnesses and counterexamples -/

/-- No votes occur in the example blocks, so derivation is never called. -/
def exDerive : Bytes → Option String := fun _ => none

/-- Example transfer from "a" to "b". -/
def exT1 : Transfer := ⟨List.replicate 32 2, "a", "b"⟩

/-- A second example transfer, also sent by "a". -/
def exT2 : Transfer := ⟨List.replicate 32 3, "a", "c"⟩

/-- Example block at height 1 with one transfer. -/
def exB1 : Block := ⟨1, List.replicate 32 1, some [7], [exT1], []⟩

/-- Example block at height 2 with two transfers from the same sender. -/
def exB2 : Block := ⟨2, List.replicate 32 4, some [8], [exT1, exT2], []⟩

/-- Example empty block at height 5. -/
def exB5 : Block := ⟨5, List.replicate 32 5, some [5], [], []⟩

/-- Example empty block at height 3. -/
def exB3 : Block := ⟨3, List.replicate 32 6, some [6], [], []⟩

/-- Store holding `exB1` on top of a fresh start. -/
def exS1 : Store := (putBlock exDerive startedStore exB1 true).1

/-- Store after re-putting `exB1` on `exS1`. -/
def exS2 : Store := (putBlock exDerive exS1 exB1 true).1

/-! ### C2: putBlock is atomic -/

/-- C2.  putBlock is atomic: whenever `putBlock` returns an error — a
serialization failure, a failed backend read of one of the three
singleton counters, a corrupt per-address counter, an address-derivation
failure, or a batch-commit failure — the key-value store after the call
is exactly the store before the call.  All mutations are staged in a
single batch and only the successful commit applies them. -/
theorem putBlock_result_cases (derive : Bytes → Option String) (dao : Store) (blk : Block)
    (commitOk : Bool) :
    (putBlock derive dao blk commitOk).1 = dao ∨ (putBlock derive dao blk commitOk).2 = none := by
  unfold putBlock
  cases blk.serialized with
  | none => simp [errWrap]
  | some ser =>
    dsimp only
    cases hTop : (dao.get blockNS topHeightKey).2 with
    | some e => simp [errWrap]
    | none =>
      cases hT : (dao.get blockNS totalTransfersKey).2 with
      | some e => simp [errWrap]
      | none =>
        cases hV : (dao.get blockNS totalVotesKey).2 with
        | some e => simp [errWrap]
        | none =>
          repeat' split
          all_goals simp

theorem putBlock_atomic (derive : Bytes → Option String) (dao : Store) (blk : Block)
    (commitOk : Bool) (h : ((putBlock derive dao blk commitOk).2).isSome) :
    (putBlock derive dao blk commitOk).1 = dao := by
  rcases putBlock_result_cases derive dao blk commitOk with hc | hc
  · exact hc
  · rw [hc] at h
    simp at h

/-- Witness for C2 at a concrete input: a forced commit failure on a
well-formed insertion errors out and leaves the freshly started store
unchanged. -/
theorem putBlock_atomic_witness :
    ((putBlock exDerive startedStore exB1 false).2).isSome = true ∧
      (putBlock exDerive startedStore exB1 false).1 = startedStore :=
  ⟨by decide, putBlock_atomic exDerive startedStore exB1 false (by decide)⟩

/-! ### C6: getBlockHash on a present value of wrong length -/

/-- Store whose `"height." ‖ enc 5` mapping holds a 7-byte value. -/
def exCorruptHeightStore : Store :=
  ⟨[((blockHashHeightMappingNS, heightPrefixBytes ++ uint64ToBytes 5), [1, 2, 3, 4, 5, 6, 7])],
   []⟩

/-- C6.  Evaluation of the code at the claim's failing input: with a
present 7-byte value under `"height." ‖ enc 5`, `getBlockHash` returns
the zero hash together with a nil error — a silent success, not the
corrupt-value error the claim requires.  The code wraps the nil `Get`
error (`errors.Wrap(nil, "blockhash is broken")` is nil), so the
corrupt branch can never produce a non-nil error. -/
theorem getBlockHash_corrupt_value_is_silent :
    getBlockHash exCorruptHeightStore 5 = (zeroHash32B, none) ∧
      exCorruptHeightStore.lookup blockHashHeightMappingNS
        (heightPrefixBytes ++ uint64ToBytes 5) = some [1, 2, 3, 4, 5, 6, 7] := by
  constructor
  · decide
  · decide

/-! ### C7: the per-address count getters -/

/-- Store that injects a backend read failure on the transfer-from
counter of address "A" and on the three sibling counters. -/
def exFailingCounterStore : Store :=
  ⟨[],
   [(blockAddressTransferCountMappingNS, transferFromPrefixBytes ++ strBytes "A"),
    (blockAddressTransferCountMappingNS, transferToPrefixBytes ++ strBytes "A"),
    (blockAddressVoteCountMappingNS, voteFromPrefixBytes ++ strBytes "A"),
    (blockAddressVoteCountMappingNS, voteToPrefixBytes ++ strBytes "A")]⟩

/-- C7 counterexample.  A backend (KV I/O) failure on the counter key is
not propagated: all four count getters return `(0, nil)` even though the
backend read failed, refuting both the claimed propagation and the
claimed "returns 0 without error exactly when the key is absent". -/
theorem getCounts_swallow_backend_failure :
    getTransferCountBySenderAddress exFailingCounterStore "A" = (0, none) ∧
      getTransferCountByRecipientAddress exFailingCounterStore "A" = (0, none) ∧
      getVoteCountBySenderAddress exFailingCounterStore "A" = (0, none) ∧
      getVoteCountByRecipientAddress exFailingCounterStore "A" = (0, none) ∧
      (blockAddressTransferCountMappingNS, transferFromPrefixBytes ++ strBytes "A")
        ∈ exFailingCounterStore.failures := by
  refine ⟨by decide, by decide, by decide, by decide, by decide⟩

/-- Specification of the count getters as amended: an absent counter key
*or a failed backend read* yields `(0, nil)` — the error is swallowed,
not propagated; a present-but-empty value yields a broken-counter
error; a present non-empty value decodes. -/
def countGetSpec (S : Store) (ns : String) (key : Bytes) (broken : String) : Nat × Option Err :=
  if (ns, key) ∈ S.failures then (0, none)
  else
    match S.lookup ns key with
    | none => (0, none)
    | some v => if v.length = 0 then (0, some (Err.msg broken)) else (machineUint64 v, none)

/-- C7 amended.  Each of the four per-address count getters implements
`countGetSpec` on its own namespace, prefix and message: absent key ⇒
`(0, nil)`; backend failure ⇒ also `(0, nil)` (silently swallowed, not
propagated); present-but-empty value ⇒ broken-counter error; otherwise
the decoded count. -/
theorem countGetSpec_eval (S : Store) (ns : String) (key : Bytes) (m : String) :
    (match (S.get ns key).2 with
      | some _ => ((0 : Nat), (none : Option Err))
      | none =>
        if (S.get ns key).1.length = 0 then (0, some (Err.msg m))
        else (machineUint64 (S.get ns key).1, none)) =
      countGetSpec S ns key m := by
  unfold Store.get countGetSpec
  by_cases hmem : (ns, key) ∈ S.failures
  · rw [if_pos hmem, if_pos hmem]
  · rw [if_neg hmem, if_neg hmem]
    cases h : S.lookup ns key with
    | none => simp
    | some v =>
      cases v with
      | nil => simp
      | cons a t => simp

theorem getCounts_spec (S : Store) (A : String) :
    getTransferCountBySenderAddress S A =
      countGetSpec S blockAddressTransferCountMappingNS
        (transferFromPrefixBytes ++ strBytes A) "count of transfers as recipient is broken" ∧
    getTransferCountByRecipientAddress S A =
      countGetSpec S blockAddressTransferCountMappingNS
        (transferToPrefixBytes ++ strBytes A) "count of transfers as recipient is broken" ∧
    getVoteCountBySenderAddress S A =
      countGetSpec S blockAddressVoteCountMappingNS
        (voteFromPrefixBytes ++ strBytes A) "count of votes as sender is broken" ∧
    getVoteCountByRecipientAddress S A =
      countGetSpec S blockAddressVoteCountMappingNS
        (voteToPrefixBytes ++ strBytes A) "count of votes as recipient is broken" := by
  refine ⟨?_, ?_, ?_, ?_⟩
  · dsimp only [getTransferCountBySenderAddress]
    exact countGetSpec_eval S _ _ _
  · dsimp only [getTransferCountByRecipientAddress]
    exact countGetSpec_eval S _ _ _
  · dsimp only [getVoteCountBySenderAddress]
    exact countGetSpec_eval S _ _ _
  · dsimp only [getVoteCountByRecipientAddress]
    exact countGetSpec_eval S _ _ _

/-! ### C8: Start -/

/-- Store where only `total-transfers` is already present. -/
def exTotalTransfersOnlyStore : Store := ⟨[((blockNS, totalTransfersKey), List.replicate 8 0)], []⟩

/-- Store where only `top-height` is already present. -/
def exTopHeightOnlyStore : Store := ⟨[((blockNS, topHeightKey), List.replicate 8 0)], []⟩

/-- C8 counterexample.  (i) With `top-height` absent but
`total-transfers` present, the second conditional insert collides and
`Start` *fails* — an already-exists collision is an error there.
(ii) With `top-height` present, `Start` returns success immediately and
does *not* attempt the remaining insertions: `total-transfers` is still
absent afterwards.  Both refute the claim as stated. -/
theorem start_collision_behaviour :
    ((Start exTotalTransfersOnlyStore).2).isSome = true ∧
      (Start exTopHeightOnlyStore).2 = none ∧
      (Start exTopHeightOnlyStore).1.lookup blockNS totalTransfersKey = none ∧
      (Start exTopHeightOnlyStore).1.lookup blockNS totalVotesKey = none := by
  refine ⟨by decide, by decide, by decide, by decide⟩

/-- Specification of `Start` as amended: a backend read failure on any
of the three conditional inserts makes `Start` fail with a wrapped
error; otherwise, if `top-height` is already present, `Start` succeeds
immediately, leaving the store untouched and *without attempting* the
other two insertions; otherwise it inserts `top-height`, and a collision
on `total-transfers` or on `total-votes` makes `Start` fail, with all
successfully staged direct inserts already applied. -/
def startSpec (S : Store) : Store × Option Err :=
  if (blockNS, topHeightKey) ∈ S.failures then
    (S, some (Err.wrapped Err.backend "failed to write initial value for top height"))
  else
  if (S.lookup blockNS topHeightKey).isSome then (S, none)
  else
    let S1 : Store := ⟨putKV S.entries blockNS topHeightKey (List.replicate 8 0), S.failures⟩
    if (blockNS, totalTransfersKey) ∈ S1.failures then
      (S1, some (Err.wrapped Err.backend "failed to write initial value for total transfers"))
    else if (S1.lookup blockNS totalTransfersKey).isSome then
      (S1, some (Err.wrapped Err.alreadyExist "failed to write initial value for total transfers"))
    else
      let S2 : Store :=
        ⟨putKV S1.entries blockNS totalTransfersKey (List.replicate 8 0), S1.failures⟩
      if (blockNS, totalVotesKey) ∈ S2.failures then
        (S2, some (Err.wrapped Err.backend "failed to write initial value for total votes"))
      else if (S2.lookup blockNS totalVotesKey).isSome then
        (S2, some (Err.wrapped Err.alreadyExist "failed to write initial value for total votes"))
      else
        (⟨putKV S2.entries blockNS totalVotesKey (List.replicate 8 0), S2.failures⟩, none)

theorem putIfNotExists_eq_fail (s : Store) {ns : String} {key : Bytes}
    (v : Bytes) (h : (ns, key) ∈ s.failures) :
    s.putIfNotExists ns key v = (s, some Err.backend) := by
  simp [Store.putIfNotExists, h]

theorem putIfNotExists_eq_present (s : Store) {ns : String} {key : Bytes} {w : Bytes}
    (v : Bytes) (hm : (ns, key) ∉ s.failures) (h : s.lookup ns key = some w) :
    s.putIfNotExists ns key v = (s, some Err.alreadyExist) := by
  simp [Store.putIfNotExists, hm, h]

theorem putIfNotExists_eq_absent (s : Store) {ns : String} {key : Bytes}
    (v : Bytes) (hm : (ns, key) ∉ s.failures) (h : s.lookup ns key = none) :
    s.putIfNotExists ns key v = (⟨putKV s.entries ns key v, s.failures⟩, none) := by
  simp [Store.putIfNotExists, hm, h]

/-- C8 amended.  On every store, `Start` implements `startSpec`: the
already-exists collision on `top-height` is benign and short-circuits
the remaining insertions, a collision on `total-transfers` or
`total-votes` is reported as a wrapped error, and any other store error
— a backend read failure on any of the three conditional inserts —
makes `Start` fail with a wrapped error. -/
theorem start_spec (S : Store) : Start S = startSpec S := by
  unfold Start startSpec
  by_cases hm1 : (blockNS, topHeightKey) ∈ S.failures
  · rw [putIfNotExists_eq_fail S _ hm1]
    simp [hm1, errWrap]
  · rw [if_neg hm1]
    cases h1 : S.lookup blockNS topHeightKey with
    | some v1 =>
      rw [putIfNotExists_eq_present S _ hm1 h1]
      simp [h1]
    | none =>
      rw [putIfNotExists_eq_absent S _ hm1 h1]
      simp only [h1, Option.isSome_none, Bool.false_eq_true, if_false]
      by_cases hm2 : (blockNS, totalTransfersKey) ∈ S.failures
      · rw [putIfNotExists_eq_fail ⟨putKV S.entries blockNS topHeightKey
          (List.replicate 8 0), S.failures⟩ _ hm2]
        simp [hm2, errWrap]
      · rw [if_neg hm2]
        cases h2 : (⟨putKV S.entries blockNS topHeightKey (List.replicate 8 0), S.failures⟩ :
            Store).lookup blockNS totalTransfersKey with
        | some v2 =>
          rw [putIfNotExists_eq_present ⟨putKV S.entries blockNS topHeightKey (List.replicate 8 0), S.failures⟩ _ hm2 h2]
          simp only [h2, Option.isSome_some, if_true]
          simp [errWrap]
        | none =>
          rw [putIfNotExists_eq_absent ⟨putKV S.entries blockNS topHeightKey (List.replicate 8 0), S.failures⟩ _ hm2 h2]
          simp only [h2, Option.isSome_none, Bool.false_eq_true, if_false]
          by_cases hm3 : (blockNS, totalVotesKey) ∈ S.failures
          · rw [putIfNotExists_eq_fail ⟨putKV (putKV S.entries blockNS topHeightKey
              (List.replicate 8 0)) blockNS totalTransfersKey (List.replicate 8 0),
              S.failures⟩ _ hm3]
            simp [hm3, errWrap]
          · rw [if_neg hm3]
            cases h3 : (⟨putKV (putKV S.entries blockNS topHeightKey (List.replicate 8 0)) blockNS
                totalTransfersKey (List.replicate 8 0), S.failures⟩ :
                Store).lookup blockNS totalVotesKey with
            | some v3 =>
              rw [putIfNotExists_eq_present ⟨putKV (putKV S.entries blockNS topHeightKey (List.replicate 8 0)) blockNS totalTransfersKey (List.replicate 8 0), S.failures⟩ _ hm3 h3]
              simp only [h3, Option.isSome_some, if_true]
              simp [errWrap]
            | none =>
              rw [putIfNotExists_eq_absent ⟨putKV (putKV S.entries blockNS topHeightKey (List.replicate 8 0)) blockNS totalTransfersKey (List.replicate 8 0), S.failures⟩ _ hm3 h3]
              simp only [h3, Option.isSome_none, Bool.false_eq_true, if_false]

/-! ### C10: enumeration entry points return a nil list on error -/

/-- C10.  Whenever one of the four public per-address enumeration
operations returns an error, the list it returns is nil: the partial
list produced by the inner iteration is discarded at these entry
points. -/
theorem enumerations_nil_on_error (S : Store) (A : String) :
    (((getTransfersBySenderAddress S A).2).isSome → (getTransfersBySenderAddress S A).1 = []) ∧
    (((getTransfersByRecipientAddress S A).2).isSome →
      (getTransfersByRecipientAddress S A).1 = []) ∧
    (((getVotesBySenderAddress S A).2).isSome → (getVotesBySenderAddress S A).1 = []) ∧
    (((getVotesByRecipientAddress S A).2).isSome → (getVotesByRecipientAddress S A).1 = []) := by
  refine ⟨?_, ?_, ?_, ?_⟩
  · dsimp only [getTransfersBySenderAddress]
    cases h1 : (getTransferCountBySenderAddress S A).2 with
    | some e => simp [errWrap]
    | none =>
      cases h2 : (getTransfersByAddress S A (getTransferCountBySenderAddress S A).1
          transferFromPrefixBytes).2 with
      | some e => simp
      | none => simp
  · dsimp only [getTransfersByRecipientAddress]
    cases h1 : (getTransferCountByRecipientAddress S A).2 with
    | some e => simp [errWrap]
    | none =>
      cases h2 : (getTransfersByAddress S A (getTransferCountByRecipientAddress S A).1
          transferToPrefixBytes).2 with
      | some e => simp
      | none => simp
  · dsimp only [getVotesBySenderAddress]
    cases h1 : (getVoteCountBySenderAddress S A).2 with
    | some e => simp [errWrap]
    | none =>
      cases h2 : (getVotesByAddress S A (getVoteCountBySenderAddress S A).1
          voteFromPrefixBytes).2 with
      | some e => simp [errWrap]
      | none => simp
  · dsimp only [getVotesByRecipientAddress]
    cases h1 : (getVoteCountByRecipientAddress S A).2 with
    | some e => simp [errWrap]
    | none =>
      cases h2 : (getVotesByAddress S A (getVoteCountByRecipientAddress S A).1
          voteToPrefixBytes).2 with
      | some e => simp [errWrap]
      | none => simp

/-- Store whose four per-address counters for "A" are present but empty,
forcing every enumeration entry point into its error path. -/
def exEmptyCounterStore : Store :=
  ⟨[((blockAddressTransferCountMappingNS, transferFromPrefixBytes ++ strBytes "A"), []),
    ((blockAddressTransferCountMappingNS, transferToPrefixBytes ++ strBytes "A"), []),
    ((blockAddressVoteCountMappingNS, voteFromPrefixBytes ++ strBytes "A"), []),
    ((blockAddressVoteCountMappingNS, voteToPrefixBytes ++ strBytes "A"), [])],
   []⟩

/-- Witness for C10 at a concrete erroring input. -/
theorem enumerations_nil_on_error_witness :
    (getTransfersBySenderAddress exEmptyCounterStore "A").1 = [] ∧
      (getTransfersByRecipientAddress exEmptyCounterStore "A").1 = [] ∧
      (getVotesBySenderAddress exEmptyCounterStore "A").1 = [] ∧
      (getVotesByRecipientAddress exEmptyCounterStore "A").1 = [] :=
  ⟨(enumerations_nil_on_error exEmptyCounterStore "A").1 (by decide),
   (enumerations_nil_on_error exEmptyCounterStore "A").2.1 (by decide),
   (enumerations_nil_on_error exEmptyCounterStore "A").2.2.1 (by decide),
   (enumerations_nil_on_error exEmptyCounterStore "A").2.2.2 (by decide)⟩

/-! ### C9: per-address enumeration -/

/-- Store for address "A" with counter 1 whose single indexed value is
only 3 bytes long. -/
def exShortValueStore : Store :=
  ⟨[((blockAddressTransferCountMappingNS, transferFromPrefixBytes ++ strBytes "A"),
     uint64ToBytes 1),
    ((blockAddressTransferMappingNS, transferFromPrefixBytes ++ strBytes "A" ++ uint64ToBytes 0),
     [9, 9, 9])],
   []⟩

/-- C9 counterexample.  A stored per-address value that is present,
non-empty but shorter than 32 bytes does *not* make the call fail: the
value is zero-padded into a 32-byte hash and returned with a nil error.
Only a `Get` error or a present-but-empty value aborts the iteration. -/
theorem getTransfersBySender_short_value_succeeds :
    (getTransfersBySenderAddress exShortValueStore "A").2 = none ∧
      (getTransfersBySenderAddress exShortValueStore "A").1 = [copyHash32 [9, 9, 9]] ∧
      exShortValueStore.lookup blockAddressTransferMappingNS
          (transferFromPrefixBytes ++ strBytes "A" ++ uint64ToBytes 0) = some [9, 9, 9] ∧
      ([9, 9, 9] : Bytes).length < 32 := by
  refine ⟨by decide, by decide, by decide, by decide⟩

theorem getTransfersByAddressLoop_spec (dao : Store) (A : String) (pfx : Bytes) :
    ∀ (fuel i : Nat) (res : List Bytes),
      (∀ j, j < fuel →
        (dao.get blockAddressTransferMappingNS
          (pfx ++ strBytes A ++ uint64ToBytes (i + j))).2 = none ∧
        (dao.get blockAddressTransferMappingNS
          (pfx ++ strBytes A ++ uint64ToBytes (i + j))).1 ≠ []) →
      getTransfersByAddressLoop dao A pfx fuel i res =
        (res ++ (List.range fuel).map (fun j => copyHash32
          (dao.get blockAddressTransferMappingNS
            (pfx ++ strBytes A ++ uint64ToBytes (i + j))).1), none) := by
  intro fuel
  induction fuel with
  | zero => intro i res _; simp [getTransfersByAddressLoop]
  | succ n ih =>
    intro i res h
    have h0 := h 0 (Nat.succ_pos n)
    rw [Nat.add_zero] at h0
    unfold getTransfersByAddressLoop
    dsimp only
    simp only [h0.1]
    rw [if_neg (fun hcon => h0.2 (List.length_eq_zero.1 hcon))]
    rw [ih (i + 1) (res ++ [copyHash32
      (dao.get blockAddressTransferMappingNS (pfx ++ strBytes A ++ uint64ToBytes i)).1])
      (fun j hj => by
        have hh := h (j + 1) (Nat.succ_lt_succ hj)
        rwa [show i + (j + 1) = i + 1 + j by omega] at hh)]
    rw [List.range_succ_eq_map]
    simp only [List.map_cons, List.map_map, List.append_assoc, List.singleton_append,
      Prod.mk.injEq]
    refine ⟨?_, trivial⟩
    congr 1
    rw [Nat.add_zero]
    simp only [List.cons.injEq]
    refine ⟨rfl, ?_⟩
    symm
    apply List.map_congr_left
    intro j _
    simp only [Function.comp]
    rw [show i + (j + 1) = i + 1 + j by omega]

theorem getTransfersByAddressLoop_fails (dao : Store) (A : String) (pfx : Bytes)
    (hf : dao.failures = []) :
    ∀ (fuel i : Nat) (res : List Bytes),
      (∃ j, j < fuel ∧
        (dao.lookup blockAddressTransferMappingNS
            (pfx ++ strBytes A ++ uint64ToBytes (i + j)) = none ∨
          dao.lookup blockAddressTransferMappingNS
            (pfx ++ strBytes A ++ uint64ToBytes (i + j)) = some [])) →
      ((getTransfersByAddressLoop dao A pfx fuel i res).2).isSome := by
  intro fuel
  induction fuel with
  | zero =>
    intro i res h
    rcases h with ⟨j, hj, _⟩
    omega
  | succ n ih =>
    intro i res h
    unfold getTransfersByAddressLoop
    dsimp only
    cases hl : dao.lookup blockAddressTransferMappingNS
        (pfx ++ strBytes A ++ uint64ToBytes i) with
    | none =>
      have hg : (dao.get blockAddressTransferMappingNS
          (pfx ++ strBytes A ++ uint64ToBytes i)).2 = some Err.notExist := by
        unfold Store.get
        rw [if_neg (by simp [hf]), hl]
      simp only [hg]
      simp [errWrap]
    | some v =>
      have hg := store_get_of_lookup_some hf hl
      have hg2 : (dao.get blockAddressTransferMappingNS
          (pfx ++ strBytes A ++ uint64ToBytes i)).2 = none := by rw [hg]
      have hg1 : (dao.get blockAddressTransferMappingNS
          (pfx ++ strBytes A ++ uint64ToBytes i)).1 = v := by rw [hg]
      simp only [hg2]
      by_cases hv : v = []
      · subst hv
        rw [hg1]
        simp [errWrap]
      · rw [if_neg (by rw [hg1]; exact fun hcon => hv (List.length_eq_zero.1 hcon))]
        apply ih
        rcases h with ⟨j, hj, hd⟩
        cases j with
        | zero =>
          rw [Nat.add_zero] at hd
          rcases hd with hd | hd
          · rw [hl] at hd
            simp at hd
          · rw [hl] at hd
            exact absurd (Option.some.inj hd) hv
        | succ j0 =>
          exact ⟨j0, by omega, by
            rw [show i + 1 + j0 = i + (j0 + 1) from by omega]
            exact hd⟩

/-- C9 amended.  Suppose the stored per-address transfer counters of
`A` decode to `c` (sender side) and `c'` (recipient side).  (i) If every
value stored at sequence `0 ≤ i < c` is present and non-empty,
`getTransfersBySenderAddress` succeeds and returns a list of length `c`
whose `i`-th element is the stored value at sequence `i`, zero-padded to
32 bytes, in insertion order.  (ii) If some value at a sequence inside
the range is absent or present-but-empty, the call fails.  (iii)/(iv)
The same two statements for the recipient variant.  (A short non-empty
value does not make the call fail — per the counterexample it is
zero-padded without error.) -/
theorem getTransfersByAddress_enumeration (S : Store) (A : String) (c c' : Nat)
    (hf : S.failures = [])
    (hc : c < 2 ^ 64) (hc' : c' < 2 ^ 64)
    (hcnt : S.lookup blockAddressTransferCountMappingNS
      (transferFromPrefixBytes ++ strBytes A) = some (uint64ToBytes c))
    (hcnt' : S.lookup blockAddressTransferCountMappingNS
      (transferToPrefixBytes ++ strBytes A) = some (uint64ToBytes c')) :
    ((∀ i, i < c →
      S.lookup blockAddressTransferMappingNS
        (transferFromPrefixBytes ++ strBytes A ++ uint64ToBytes i) ≠ none ∧
      S.lookup blockAddressTransferMappingNS
        (transferFromPrefixBytes ++ strBytes A ++ uint64ToBytes i) ≠ some []) →
      (getTransfersBySenderAddress S A).2 = none ∧
      (getTransfersBySenderAddress S A).1.length = c ∧
      (∀ i, i < c → (getTransfersBySenderAddress S A).1.get? i =
        some (copyHash32 ((S.lookup blockAddressTransferMappingNS
          (transferFromPrefixBytes ++ strBytes A ++ uint64ToBytes i)).getD [])))) ∧
    (∀ i, i < c →
      (S.lookup blockAddressTransferMappingNS
          (transferFromPrefixBytes ++ strBytes A ++ uint64ToBytes i) = none ∨
        S.lookup blockAddressTransferMappingNS
          (transferFromPrefixBytes ++ strBytes A ++ uint64ToBytes i) = some []) →
      ((getTransfersBySenderAddress S A).2).isSome) ∧
    ((∀ i, i < c' →
      S.lookup blockAddressTransferMappingNS
        (transferToPrefixBytes ++ strBytes A ++ uint64ToBytes i) ≠ none ∧
      S.lookup blockAddressTransferMappingNS
        (transferToPrefixBytes ++ strBytes A ++ uint64ToBytes i) ≠ some []) →
      (getTransfersByRecipientAddress S A).2 = none ∧
      (getTransfersByRecipientAddress S A).1.length = c' ∧
      (∀ i, i < c' → (getTransfersByRecipientAddress S A).1.get? i =
        some (copyHash32 ((S.lookup blockAddressTransferMappingNS
          (transferToPrefixBytes ++ strBytes A ++ uint64ToBytes i)).getD [])))) ∧
    (∀ i, i < c' →
      (S.lookup blockAddressTransferMappingNS
          (transferToPrefixBytes ++ strBytes A ++ uint64ToBytes i) = none ∨
        S.lookup blockAddressTransferMappingNS
          (transferToPrefixBytes ++ strBytes A ++ uint64ToBytes i) = some []) →
      ((getTransfersByRecipientAddress S A).2).isSome) := by
  have hget : ∀ (pfx : Bytes) (cc : Nat),
      S.lookup blockAddressTransferCountMappingNS (pfx ++ strBytes A) =
        some (uint64ToBytes cc) → cc < 2 ^ 64 →
      (∀ i, i < cc →
        S.lookup blockAddressTransferMappingNS (pfx ++ strBytes A ++ uint64ToBytes i) ≠ none ∧
        S.lookup blockAddressTransferMappingNS (pfx ++ strBytes A ++ uint64ToBytes i) ≠
          some []) →
      getTransfersByAddress S A cc pfx =
        ((List.range cc).map (fun j => copyHash32
          ((S.lookup blockAddressTransferMappingNS
            (pfx ++ strBytes A ++ uint64ToBytes j)).getD [])), none) := by
    intro pfx cc _ _ hv
    unfold getTransfersByAddress
    rw [getTransfersByAddressLoop_spec S A pfx cc 0 [] (fun j hj => by
      rcases hv j hj with ⟨h1, h2⟩
      rw [show (0 : Nat) + j = j from by omega]
      cases hl : S.lookup blockAddressTransferMappingNS
          (pfx ++ strBytes A ++ uint64ToBytes j) with
      | none => exact absurd hl h1
      | some v =>
        have hg := store_get_of_lookup_some hf hl
        refine ⟨by rw [hg], ?_⟩
        rw [hg]
        intro he
        exact h2 (hl.trans (congrArg some he)))]
    simp only [List.nil_append]
    congr 1
    apply List.map_congr_left
    intro j hj
    rw [show (0 : Nat) + j = j from by omega]
    rcases hv j (List.mem_range.1 hj) with ⟨h1, _⟩
    cases hl : S.lookup blockAddressTransferMappingNS
        (pfx ++ strBytes A ++ uint64ToBytes j) with
    | none => exact absurd hl h1
    | some v => rw [store_get_of_lookup_some hf hl]; rfl
  have hcount : getTransferCountBySenderAddress S A = (c, none) := by
    unfold getTransferCountBySenderAddress
    dsimp only
    rw [store_get_of_lookup_some hf hcnt]
    dsimp only
    rw [if_neg (by simp [uint64ToBytes_length]), machineUint64_uint64ToBytes,
      Nat.mod_eq_of_lt hc]
  have hcount' : getTransferCountByRecipientAddress S A = (c', none) := by
    unfold getTransferCountByRecipientAddress
    dsimp only
    rw [store_get_of_lookup_some hf hcnt']
    dsimp only
    rw [if_neg (by simp [uint64ToBytes_length]), machineUint64_uint64ToBytes,
      Nat.mod_eq_of_lt hc']
  refine ⟨?_, ?_, ?_, ?_⟩
  · intro hvals
    have hs := hget transferFromPrefixBytes c hcnt hc hvals
    have hsender : getTransfersBySenderAddress S A =
        ((List.range c).map (fun j => copyHash32
          ((S.lookup blockAddressTransferMappingNS
            (transferFromPrefixBytes ++ strBytes A ++ uint64ToBytes j)).getD [])), none) := by
      unfold getTransfersBySenderAddress
      rw [hcount]
      dsimp only
      rw [hs]
    refine ⟨by rw [hsender], by rw [hsender]; simp, ?_⟩
    intro i hi
    rw [hsender]
    dsimp only
    rw [List.get?_eq_getElem?, List.getElem?_map, List.getElem?_range hi]
    rfl
  · intro i hi hbad
    have hloop := getTransfersByAddressLoop_fails S A transferFromPrefixBytes hf c 0 []
      ⟨i, hi, by simpa using hbad⟩
    have hfail : ((getTransfersByAddress S A c transferFromPrefixBytes).2).isSome := hloop
    unfold getTransfersBySenderAddress
    rw [hcount]
    dsimp only
    cases hr2 : (getTransfersByAddress S A c transferFromPrefixBytes).2 with
    | none =>
      rw [hr2] at hfail
      simp at hfail
    | some e => simp [hr2]
  · intro hvals'
    have hr := hget transferToPrefixBytes c' hcnt' hc' hvals'
    have hrecipient : getTransfersByRecipientAddress S A =
        ((List.range c').map (fun j => copyHash32
          ((S.lookup blockAddressTransferMappingNS
            (transferToPrefixBytes ++ strBytes A ++ uint64ToBytes j)).getD [])), none) := by
      unfold getTransfersByRecipientAddress
      rw [hcount']
      dsimp only
      rw [hr]
    refine ⟨by rw [hrecipient], by rw [hrecipient]; simp, ?_⟩
    intro i hi
    rw [hrecipient]
    dsimp only
    rw [List.get?_eq_getElem?, List.getElem?_map, List.getElem?_range hi]
    rfl
  · intro i hi hbad
    have hloop := getTransfersByAddressLoop_fails S A transferToPrefixBytes hf c' 0 []
      ⟨i, hi, by simpa using hbad⟩
    have hfail : ((getTransfersByAddress S A c' transferToPrefixBytes).2).isSome := hloop
    unfold getTransfersByRecipientAddress
    rw [hcount']
    dsimp only
    cases hr2 : (getTransfersByAddress S A c' transferToPrefixBytes).2 with
    | none =>
      rw [hr2] at hfail
      simp at hfail
    | some e => simp [hr2]

/-- Store with two properly indexed sender entries and one recipient
entry for address "A". -/
def exEnumStore : Store :=
  ⟨[((blockAddressTransferCountMappingNS, transferFromPrefixBytes ++ strBytes "A"),
     uint64ToBytes 2),
    ((blockAddressTransferCountMappingNS, transferToPrefixBytes ++ strBytes "A"),
     uint64ToBytes 1),
    ((blockAddressTransferMappingNS, transferFromPrefixBytes ++ strBytes "A" ++ uint64ToBytes 0),
     List.replicate 32 7),
    ((blockAddressTransferMappingNS, transferFromPrefixBytes ++ strBytes "A" ++ uint64ToBytes 1),
     List.replicate 32 8),
    ((blockAddressTransferMappingNS, transferToPrefixBytes ++ strBytes "A" ++ uint64ToBytes 0),
     List.replicate 32 9)],
   []⟩

/-- Store for address "A" whose sender-side counter is 1 with the
indexed entry absent, and whose recipient-side counter is 1 with the
indexed entry present but empty. -/
def exDefectStore : Store :=
  ⟨[((blockAddressTransferCountMappingNS, transferFromPrefixBytes ++ strBytes "A"),
     uint64ToBytes 1),
    ((blockAddressTransferCountMappingNS, transferToPrefixBytes ++ strBytes "A"),
     uint64ToBytes 1),
    ((blockAddressTransferMappingNS, transferToPrefixBytes ++ strBytes "A" ++ uint64ToBytes 0),
     [])],
   []⟩

/-- Witness for C9's amended theorem: success at a concrete two-entry
store, and failure at a store with an absent sender-side entry and an
empty recipient-side entry inside the counted range. -/
theorem getTransfersByAddress_enumeration_witness :
    ((getTransfersBySenderAddress exEnumStore "A").2 = none ∧
      (getTransfersBySenderAddress exEnumStore "A").1.length = 2 ∧
      (getTransfersByRecipientAddress exEnumStore "A").1.length = 1) ∧
    ((getTransfersBySenderAddress exDefectStore "A").2).isSome ∧
    ((getTransfersByRecipientAddress exDefectStore "A").2).isSome :=
  have h := getTransfersByAddress_enumeration exEnumStore "A" 2 1 (by decide) (by decide)
    (by decide) (by decide) (by decide)
  have hd := getTransfersByAddress_enumeration exDefectStore "A" 1 1 (by decide) (by decide)
    (by decide) (by decide) (by decide)
  ⟨⟨(h.1 (by decide)).1, (h.1 (by decide)).2.1, (h.2.2.1 (by decide)).2.1⟩,
   hd.2.1 0 (by decide) (Or.inl (by decide)),
   hd.2.2.2 0 (by decide) (Or.inr (by decide))⟩

/-! ### Normal forms of the write path -/

theorem lookupKV_mem {l : List ((String × Bytes) × Bytes)} {ns : String} {key : Bytes}
    {v : Bytes} (h : lookupKV l ns key = some v) : ((ns, key), v) ∈ l := by
  induction l with
  | nil => simp [lookupKV] at h
  | cons e rest ih =>
    obtain ⟨k, w⟩ := e
    by_cases hk : k = (ns, key)
    · subst hk
      simp [lookupKV] at h
      simp [h]
    · simp [lookupKV, hk] at h
      exact List.mem_cons_of_mem _ (ih h)

theorem lookup_ne_nil {S : Store} (hne : NoEmptyVals S) {ns : String} {key : Bytes}
    {v : Bytes} (h : S.lookup ns key = some v) : v ≠ [] :=
  hne _ (lookupKV_mem h)

theorem getTransferCountBySenderAddress_no_error {S : Store} (hne : NoEmptyVals S)
    (A : String) : (getTransferCountBySenderAddress S A).2 = none := by
  unfold getTransferCountBySenderAddress
  by_cases hmem : (blockAddressTransferCountMappingNS, transferFromPrefixBytes ++ strBytes A) ∈ S.failures
  · simp [Store.get, hmem]
  · cases hl : S.lookup blockAddressTransferCountMappingNS (transferFromPrefixBytes ++ strBytes A) with
    | none => simp [Store.get, hmem, hl]
    | some v =>
      dsimp only
      simp only [Store.get, if_neg hmem, hl]
      rw [if_neg (fun hc => lookup_ne_nil hne hl (List.length_eq_zero.1 hc))]

theorem getTransferCountByRecipientAddress_no_error {S : Store} (hne : NoEmptyVals S)
    (A : String) : (getTransferCountByRecipientAddress S A).2 = none := by
  unfold getTransferCountByRecipientAddress
  by_cases hmem : (blockAddressTransferCountMappingNS, transferToPrefixBytes ++ strBytes A) ∈ S.failures
  · simp [Store.get, hmem]
  · cases hl : S.lookup blockAddressTransferCountMappingNS (transferToPrefixBytes ++ strBytes A) with
    | none => simp [Store.get, hmem, hl]
    | some v =>
      dsimp only
      simp only [Store.get, if_neg hmem, hl]
      rw [if_neg (fun hc => lookup_ne_nil hne hl (List.length_eq_zero.1 hc))]

theorem getVoteCountBySenderAddress_no_error {S : Store} (hne : NoEmptyVals S)
    (A : String) : (getVoteCountBySenderAddress S A).2 = none := by
  unfold getVoteCountBySenderAddress
  by_cases hmem : (blockAddressVoteCountMappingNS, voteFromPrefixBytes ++ strBytes A) ∈ S.failures
  · simp [Store.get, hmem]
  · cases hl : S.lookup blockAddressVoteCountMappingNS (voteFromPrefixBytes ++ strBytes A) with
    | none => simp [Store.get, hmem, hl]
    | some v =>
      dsimp only
      simp only [Store.get, if_neg hmem, hl]
      rw [if_neg (fun hc => lookup_ne_nil hne hl (List.length_eq_zero.1 hc))]

theorem getVoteCountByRecipientAddress_no_error {S : Store} (hne : NoEmptyVals S)
    (A : String) : (getVoteCountByRecipientAddress S A).2 = none := by
  unfold getVoteCountByRecipientAddress
  by_cases hmem : (blockAddressVoteCountMappingNS, voteToPrefixBytes ++ strBytes A) ∈ S.failures
  · simp [Store.get, hmem]
  · cases hl : S.lookup blockAddressVoteCountMappingNS (voteToPrefixBytes ++ strBytes A) with
    | none => simp [Store.get, hmem, hl]
    | some v =>
      dsimp only
      simp only [Store.get, if_neg hmem, hl]
      rw [if_neg (fun hc => lookup_ne_nil hne hl (List.length_eq_zero.1 hc))]

/-- The batch suffix `putTransfersLoop` appends, as a pure generator
(well-defined because the counter reads cannot error on a store without
empty values). -/
def txOps (dao : Store) :
    List Transfer → (String → Option Nat) → (String → Option Nat) → Batch
  | [], _, _ => []
  | t :: ts, sd, rd =>
    let sc := match sd t.Sender with
      | some delta => (getTransferCountBySenderAddress dao t.Sender).1 + delta
      | none => (getTransferCountBySenderAddress dao t.Sender).1
    let sd' : String → Option Nat := fun x =>
      if x = t.Sender then
        match sd t.Sender with
        | some delta => some (delta + 1)
        | none => some 1
      else sd x
    let rc := match rd t.Recipient with
      | some delta => (getTransferCountByRecipientAddress dao t.Recipient).1 + delta
      | none => (getTransferCountByRecipientAddress dao t.Recipient).1
    let rd' : String → Option Nat := fun x =>
      if x = t.Recipient then
        match rd t.Recipient with
        | some delta => some (delta + 1)
        | none => some 1
      else rd x
    [BatchOp.putIfNotExists blockAddressTransferMappingNS
       (transferFromPrefixBytes ++ strBytes t.Sender ++ uint64ToBytes sc) t.hash,
     BatchOp.put blockAddressTransferCountMappingNS
       (transferFromPrefixBytes ++ strBytes t.Sender) (uint64ToBytes (sc + 1)),
     BatchOp.putIfNotExists blockAddressTransferMappingNS
       (transferToPrefixBytes ++ strBytes t.Recipient ++ uint64ToBytes rc) t.hash,
     BatchOp.put blockAddressTransferCountMappingNS
       (transferToPrefixBytes ++ strBytes t.Recipient) (uint64ToBytes (rc + 1))]
    ++ txOps dao ts sd' rd'

theorem putTransfersLoop_ok (dao : Store) (hne : NoEmptyVals dao) :
    ∀ (ts : List Transfer) (sd rd : String → Option Nat) (batch : Batch),
      putTransfersLoop dao ts sd rd batch = .ok (batch ++ txOps dao ts sd rd) := by
  intro ts
  induction ts with
  | nil => intro sd rd batch; simp [putTransfersLoop, txOps]
  | cons t ts ih =>
    intro sd rd batch
    unfold putTransfersLoop txOps
    dsimp only
    simp only [getTransferCountBySenderAddress_no_error hne,
      getTransferCountByRecipientAddress_no_error hne]
    rw [ih]
    simp [List.append_assoc]

/-- The batch suffix `putVotesLoop` appends, as a pure generator (given
that the derivation oracle succeeds on every pubkey in the list). -/
def voteOps (derive : Bytes → Option String) (dao : Store) :
    List Vote → (String → Option Nat) → (String → Option Nat) → Batch
  | [], _, _ => []
  | v :: vs, sd, rd =>
    match derive v.SelfPubkey, derive v.VotePubkey with
    | some sender, some recipient =>
      let sc := match sd sender with
        | some delta => (getVoteCountBySenderAddress dao sender).1 + delta
        | none => (getVoteCountBySenderAddress dao sender).1
      let sd' : String → Option Nat := fun x =>
        if x = sender then
          match sd sender with
          | some delta => some (delta + 1)
          | none => some 1
        else sd x
      let rc := match rd recipient with
        | some delta => (getVoteCountByRecipientAddress dao recipient).1 + delta
        | none => (getVoteCountByRecipientAddress dao recipient).1
      let rd' : String → Option Nat := fun x =>
        if x = recipient then
          match rd recipient with
          | some delta => some (delta + 1)
          | none => some 1
        else rd x
      [BatchOp.putIfNotExists blockAddressVoteMappingNS
         (voteFromPrefixBytes ++ strBytes sender ++ uint64ToBytes sc) v.hash,
       BatchOp.put blockAddressVoteCountMappingNS
         (voteFromPrefixBytes ++ strBytes sender) (uint64ToBytes (sc + 1)),
       BatchOp.putIfNotExists blockAddressVoteMappingNS
         (voteToPrefixBytes ++ strBytes recipient ++ uint64ToBytes rc) v.hash,
       BatchOp.put blockAddressVoteCountMappingNS
         (voteToPrefixBytes ++ strBytes recipient) (uint64ToBytes (rc + 1))]
      ++ voteOps derive dao vs sd' rd'
    | _, _ => []

theorem putVotesLoop_ok (derive : Bytes → Option String) (dao : Store)
    (hne : NoEmptyVals dao) :
    ∀ (vs : List Vote) (sd rd : String → Option Nat) (batch : Batch),
      (∀ v ∈ vs, (derive v.SelfPubkey).isSome ∧ (derive v.VotePubkey).isSome) →
      putVotesLoop derive dao vs sd rd batch = .ok (batch ++ voteOps derive dao vs sd rd) := by
  intro vs
  induction vs with
  | nil => intro sd rd batch _; simp [putVotesLoop, voteOps]
  | cons v vs ih =>
    intro sd rd batch hd
    have h0 := hd v (List.mem_cons_self _ _)
    obtain ⟨sender, hsender⟩ := Option.isSome_iff_exists.1 h0.1
    obtain ⟨recipient, hrecipient⟩ := Option.isSome_iff_exists.1 h0.2
    unfold putVotesLoop voteOps
    rw [hsender, hrecipient]
    dsimp only
    simp only [getVoteCountBySenderAddress_no_error hne,
      getVoteCountByRecipientAddress_no_error hne]
    rw [ih _ _ _ (fun w hw => hd w (List.mem_cons_of_mem _ hw))]
    simp [List.append_assoc]

theorem txOps_ns (dao : Store) :
    ∀ (ts : List Transfer) (sd rd : String → Option Nat), ∀ op ∈ txOps dao ts sd rd,
      (opTarget op).1 = blockAddressTransferMappingNS ∨
      (opTarget op).1 = blockAddressTransferCountMappingNS := by
  intro ts
  induction ts with
  | nil => intro sd rd op hop; simp [txOps] at hop
  | cons t ts ih =>
    intro sd rd op hop
    unfold txOps at hop
    dsimp only at hop
    rw [List.mem_append] at hop
    rcases hop with hop | hop
    · simp only [List.mem_cons, List.not_mem_nil, or_false] at hop
      rcases hop with h | h | h | h
      all_goals subst h
      all_goals simp [opTarget]
    · exact ih _ _ op hop

theorem txOps_vals (dao : Store) :
    ∀ (ts : List Transfer) (sd rd : String → Option Nat), (∀ t ∈ ts, t.hash ≠ []) →
      ∀ op ∈ txOps dao ts sd rd, opValue op ≠ [] := by
  intro ts
  induction ts with
  | nil => intro sd rd _ op hop; simp [txOps] at hop
  | cons t ts ih =>
    intro sd rd hh op hop
    unfold txOps at hop
    dsimp only at hop
    rw [List.mem_append] at hop
    rcases hop with hop | hop
    · simp only [List.mem_cons, List.not_mem_nil, or_false] at hop
      rcases hop with h | h | h | h
      all_goals subst h
      all_goals simp only [opValue]
      · exact hh t (List.mem_cons_self _ _)
      · exact uint64ToBytes_ne_nil _
      · exact hh t (List.mem_cons_self _ _)
      · exact uint64ToBytes_ne_nil _
    · exact ih _ _ (fun w hw => hh w (List.mem_cons_of_mem _ hw)) op hop

theorem voteOps_ns (derive : Bytes → Option String) (dao : Store) :
    ∀ (vs : List Vote) (sd rd : String → Option Nat), ∀ op ∈ voteOps derive dao vs sd rd,
      (opTarget op).1 = blockAddressVoteMappingNS ∨
      (opTarget op).1 = blockAddressVoteCountMappingNS := by
  intro vs
  induction vs with
  | nil => intro sd rd op hop; simp [voteOps] at hop
  | cons v vs ih =>
    intro sd rd op hop
    unfold voteOps at hop
    cases hs : derive v.SelfPubkey with
    | none => rw [hs] at hop; simp at hop
    | some sender =>
      cases hr : derive v.VotePubkey with
      | none => rw [hs, hr] at hop; simp at hop
      | some recipient =>
        rw [hs, hr] at hop
        dsimp only at hop
        rw [List.mem_append] at hop
        rcases hop with hop | hop
        · simp only [List.mem_cons, List.not_mem_nil, or_false] at hop
          rcases hop with h | h | h | h
          all_goals subst h
          all_goals simp [opTarget]
        · exact ih _ _ op hop

theorem voteOps_vals (derive : Bytes → Option String) (dao : Store) :
    ∀ (vs : List Vote) (sd rd : String → Option Nat), (∀ v ∈ vs, v.hash ≠ []) →
      ∀ op ∈ voteOps derive dao vs sd rd, opValue op ≠ [] := by
  intro vs
  induction vs with
  | nil => intro sd rd _ op hop; simp [voteOps] at hop
  | cons v vs ih =>
    intro sd rd hh op hop
    unfold voteOps at hop
    cases hs : derive v.SelfPubkey with
    | none => rw [hs] at hop; simp at hop
    | some sender =>
      cases hr : derive v.VotePubkey with
      | none => rw [hs, hr] at hop; simp at hop
      | some recipient =>
        rw [hs, hr] at hop
        dsimp only at hop
        rw [List.mem_append] at hop
        rcases hop with hop | hop
        · simp only [List.mem_cons, List.not_mem_nil, or_false] at hop
          rcases hop with h | h | h | h
          all_goals subst h
          all_goals simp only [opValue]
          · exact hh v (List.mem_cons_self _ _)
          · exact uint64ToBytes_ne_nil _
          · exact hh v (List.mem_cons_self _ _)
          · exact uint64ToBytes_ne_nil _
        · exact ih _ _ (fun w hw => hh w (List.mem_cons_of_mem _ hw)) op hop

/-- Well-formedness of a block as the collaborators guarantee it:
32-byte hashes throughout, a successful non-empty serialization, and a
height below `2 ^ 64`. -/
abbrev BlockWF (b : Block) : Prop :=
  b.hash.length = 32 ∧ b.serialized.isSome ∧ b.serialized ≠ some [] ∧ b.height < 2 ^ 64 ∧
  (∀ t ∈ b.Transfers, t.hash.length = 32) ∧ (∀ v ∈ b.Votes, v.hash.length = 32)

/-- The derivation oracle succeeds on every vote of the block. -/
abbrev VotesOK (derive : Bytes → Option String) (b : Block) : Prop :=
  ∀ v ∈ b.Votes, (derive v.SelfPubkey).isSome ∧ (derive v.VotePubkey).isSome

/-- The batch a successful `putBlock` commits, as a pure function of the
pre-state: payload, hash↔height mappings, conditional top-height bump,
the two totals, tx/vote→block mappings, and the per-address suffixes. -/
def putBlockBatch (derive : Bytes → Option String) (dao : Store) (blk : Block)
    (ser : Bytes) : Batch :=
  ([BatchOp.putIfNotExists blockNS blk.hash ser,
    BatchOp.put blockHashHeightMappingNS (hashPrefixBytes ++ blk.hash)
      (uint64ToBytes blk.height),
    BatchOp.put blockHashHeightMappingNS (heightPrefixBytes ++ uint64ToBytes blk.height)
      blk.hash]
   ++ (if blk.height > machineUint64 (dao.get blockNS topHeightKey).1 then
        [BatchOp.put blockNS topHeightKey (uint64ToBytes blk.height)]
      else [])
   ++ [BatchOp.put blockNS totalTransfersKey
        (uint64ToBytes (machineUint64 (dao.get blockNS totalTransfersKey).1 +
          blk.Transfers.length))]
   ++ [BatchOp.put blockNS totalVotesKey
        (uint64ToBytes (machineUint64 (dao.get blockNS totalVotesKey).1 + blk.Votes.length))]
   ++ blk.Transfers.map (fun t =>
        BatchOp.put blockTransferBlockMappingNS (transferPrefixBytes ++ t.hash) blk.hash)
   ++ blk.Votes.map (fun v =>
        BatchOp.put blockVoteBlockMappingNS (votePrefixBytes ++ v.hash) blk.hash))
  ++ txOps dao blk.Transfers (fun _ => none) (fun _ => none)
  ++ voteOps derive dao blk.Votes (fun _ => none) (fun _ => none)

theorem putBlock_ok (derive : Bytes → Option String) (dao : Store) (blk : Block)
    (ser : Bytes) (hne : NoEmptyVals dao) (hser : blk.serialized = some ser)
    (hf : dao.failures = [])
    (hTop : (dao.lookup blockNS topHeightKey).isSome)
    (hT : (dao.lookup blockNS totalTransfersKey).isSome)
    (hV : (dao.lookup blockNS totalVotesKey).isSome)
    (hvotes : VotesOK derive blk) :
    putBlock derive dao blk true = (applyBatch dao (putBlockBatch derive dao blk ser), none) := by
  obtain ⟨vTop, hvTop⟩ := Option.isSome_iff_exists.1 hTop
  obtain ⟨vT, hvT⟩ := Option.isSome_iff_exists.1 hT
  obtain ⟨vV, hvV⟩ := Option.isSome_iff_exists.1 hV
  unfold putBlock
  rw [hser]
  dsimp only
  rw [store_get_of_lookup_some hf hvTop, store_get_of_lookup_some hf hvT,
    store_get_of_lookup_some hf hvV]
  dsimp only
  unfold putTransfers
  rw [putTransfersLoop_ok dao hne]
  dsimp only
  unfold putVotes
  rw [putVotesLoop_ok derive dao hne _ _ _ _ hvotes]
  dsimp only
  unfold putBlockBatch
  rw [store_get_of_lookup_some hf hvTop, store_get_of_lookup_some hf hvT,
    store_get_of_lookup_some hf hvV]
  by_cases hcond : blk.height > machineUint64 vTop
  · rw [if_pos hcond, if_pos hcond]
    simp [List.append_assoc]
  · rw [if_neg hcond, if_neg hcond]
    simp [List.append_assoc]

theorem applyBatch_cons (s : Store) (op : BatchOp) (b : Batch) :
    applyBatch s (op :: b) = applyBatch (applyOp s op) b := rfl

theorem ne_target_of_ns {op : BatchOp} {ns : String} {k : Bytes}
    (h : (opTarget op).1 ≠ ns) : opTarget op ≠ (ns, k) := fun he => h (by rw [he])

theorem put_target_ne {ns ns' : String} (h : ns ≠ ns') (k v k' : Bytes) :
    opTarget (BatchOp.put ns k v) ≠ (ns', k') := fun he => h (by
  have := congrArg Prod.fst he
  simpa [opTarget] using this)

theorem pine_target_ne {ns ns' : String} (h : ns ≠ ns') (k v k' : Bytes) :
    opTarget (BatchOp.putIfNotExists ns k v) ≠ (ns', k') := fun he => h (by
  have := congrArg Prod.fst he
  simpa [opTarget] using this)

theorem applyBatch_singleton (s : Store) (op : BatchOp) : applyBatch s [op] = applyOp s op := rfl

theorem applyBatch_nil (s : Store) : applyBatch s [] = s := rfl

theorem putBlockBatch_decomp (derive : Bytes → Option String) (S : Store) (blk : Block)
    (ser : Bytes) :
    putBlockBatch derive S blk ser =
      BatchOp.putIfNotExists blockNS blk.hash ser ::
      BatchOp.put blockHashHeightMappingNS (hashPrefixBytes ++ blk.hash)
        (uint64ToBytes blk.height) ::
      BatchOp.put blockHashHeightMappingNS (heightPrefixBytes ++ uint64ToBytes blk.height)
        blk.hash ::
      ((if blk.height > machineUint64 (S.get blockNS topHeightKey).1 then
          [BatchOp.put blockNS topHeightKey (uint64ToBytes blk.height)]
        else []) ++
       (BatchOp.put blockNS totalTransfersKey
          (uint64ToBytes (machineUint64 (S.get blockNS totalTransfersKey).1 +
            blk.Transfers.length)) ::
        BatchOp.put blockNS totalVotesKey
          (uint64ToBytes (machineUint64 (S.get blockNS totalVotesKey).1 + blk.Votes.length)) ::
        (blk.Transfers.map (fun t =>
            BatchOp.put blockTransferBlockMappingNS (transferPrefixBytes ++ t.hash) blk.hash) ++
         (blk.Votes.map (fun v =>
            BatchOp.put blockVoteBlockMappingNS (votePrefixBytes ++ v.hash) blk.hash) ++
          (txOps S blk.Transfers (fun _ => none) (fun _ => none) ++
           voteOps derive S blk.Votes (fun _ => none) (fun _ => none)))))) := by
  unfold putBlockBatch
  simp [List.append_assoc]

/-- Every operation in the tail of the batch (the tx/vote→block maps and
the per-address suffixes) stays out of the `blocks` and `hash<->height`
namespaces. -/
theorem putBlockTail_ns (derive : Bytes → Option String) (S : Store) (blk : Block) :
    ∀ op ∈ (blk.Transfers.map (fun t =>
        BatchOp.put blockTransferBlockMappingNS (transferPrefixBytes ++ t.hash) blk.hash) ++
      (blk.Votes.map (fun v =>
        BatchOp.put blockVoteBlockMappingNS (votePrefixBytes ++ v.hash) blk.hash) ++
       (txOps S blk.Transfers (fun _ => none) (fun _ => none) ++
        voteOps derive S blk.Votes (fun _ => none) (fun _ => none)))),
      (opTarget op).1 = blockTransferBlockMappingNS ∨
      (opTarget op).1 = blockVoteBlockMappingNS ∨
      (opTarget op).1 = blockAddressTransferMappingNS ∨
      (opTarget op).1 = blockAddressTransferCountMappingNS ∨
      (opTarget op).1 = blockAddressVoteMappingNS ∨
      (opTarget op).1 = blockAddressVoteCountMappingNS := by
  intro op hop
  rw [List.mem_append] at hop
  rcases hop with hop | hop
  · rcases List.mem_map.1 hop with ⟨t, _, rfl⟩
    simp [opTarget]
  · rw [List.mem_append] at hop
    rcases hop with hop | hop
    · rcases List.mem_map.1 hop with ⟨v, _, rfl⟩
      simp [opTarget]
    · rw [List.mem_append] at hop
      rcases hop with hop | hop
      · rcases txOps_ns S _ _ _ op hop with h | h
        · exact Or.inr (Or.inr (Or.inl h))
        · exact Or.inr (Or.inr (Or.inr (Or.inl h)))
      · rcases voteOps_ns derive S _ _ _ op hop with h | h
        · exact Or.inr (Or.inr (Or.inr (Or.inr (Or.inl h))))
        · exact Or.inr (Or.inr (Or.inr (Or.inr (Or.inr h))))

theorem tail_not_blockNS (derive : Bytes → Option String) (S : Store) (blk : Block) :
    ∀ op ∈ (blk.Transfers.map (fun t =>
        BatchOp.put blockTransferBlockMappingNS (transferPrefixBytes ++ t.hash) blk.hash) ++
      (blk.Votes.map (fun v =>
        BatchOp.put blockVoteBlockMappingNS (votePrefixBytes ++ v.hash) blk.hash) ++
       (txOps S blk.Transfers (fun _ => none) (fun _ => none) ++
        voteOps derive S blk.Votes (fun _ => none) (fun _ => none)))),
      ∀ k : Bytes, opTarget op ≠ (blockNS, k) := by
  intro op hop k
  apply ne_target_of_ns
  rcases putBlockTail_ns derive S blk op hop with h | h | h | h | h | h
  all_goals rw [h]
  all_goals decide

theorem putBlockBatch_totalTransfers (derive : Bytes → Option String) (S : Store)
    (blk : Block) (ser : Bytes) (T : Nat) (hf : S.failures = [])
    (hvT : S.lookup blockNS totalTransfersKey = some (uint64ToBytes T)) (hT64 : T < 2 ^ 64) :
    (applyBatch S (putBlockBatch derive S blk ser)).lookup blockNS totalTransfersKey =
      some (uint64ToBytes (T + blk.Transfers.length)) := by
  rw [putBlockBatch_decomp]
  rw [applyBatch_cons, applyBatch_cons, applyBatch_cons, applyBatch_append, applyBatch_cons]
  rw [lookup_applyBatch_ne]
  · rw [lookup_applyOp_put_self]
    rw [store_get_of_lookup_some hf hvT]
    rw [show ((uint64ToBytes T, (none : Option Err)) : Bytes × Option Err).1 =
      uint64ToBytes T from rfl]
    rw [machineUint64_uint64ToBytes, Nat.mod_eq_of_lt hT64]
  · intro op hop
    rcases List.mem_cons.1 hop with rfl | hop
    · simp only [opTarget]
      intro he
      have := congrArg Prod.snd he
      simp only at this
      exact absurd this (by decide)
    · exact tail_not_blockNS derive S blk op hop _

theorem putBlockBatch_totalVotes (derive : Bytes → Option String) (S : Store)
    (blk : Block) (ser : Bytes) (V : Nat) (hf : S.failures = [])
    (hvV : S.lookup blockNS totalVotesKey = some (uint64ToBytes V)) (hV64 : V < 2 ^ 64) :
    (applyBatch S (putBlockBatch derive S blk ser)).lookup blockNS totalVotesKey =
      some (uint64ToBytes (V + blk.Votes.length)) := by
  rw [putBlockBatch_decomp]
  rw [applyBatch_cons, applyBatch_cons, applyBatch_cons, applyBatch_append, applyBatch_cons,
    applyBatch_cons]
  rw [lookup_applyBatch_ne]
  · rw [lookup_applyOp_put_self]
    rw [store_get_of_lookup_some hf hvV]
    rw [show ((uint64ToBytes V, (none : Option Err)) : Bytes × Option Err).1 =
      uint64ToBytes V from rfl]
    rw [machineUint64_uint64ToBytes, Nat.mod_eq_of_lt hV64]
  · exact fun op hop => tail_not_blockNS derive S blk op hop _

theorem ne_nil_of_length {v : Bytes} {n : Nat} (h : v.length = n) (hn : n ≠ 0) : v ≠ [] := by
  intro he
  rw [he] at h
  exact hn h.symm

theorem putBlockBatch_topHeight (derive : Bytes → Option String) (S : Store)
    (blk : Block) (ser : Bytes) (H : Nat) (hf : S.failures = [])
    (hvH : S.lookup blockNS topHeightKey = some (uint64ToBytes H)) (hH64 : H < 2 ^ 64)
    (hlen : blk.hash.length = 32) :
    (applyBatch S (putBlockBatch derive S blk ser)).lookup blockNS topHeightKey =
      some (uint64ToBytes (max H blk.height)) := by
  have hsget : (S.get blockNS topHeightKey).1 = uint64ToBytes H := by
    rw [store_get_of_lookup_some hf hvH]
  have hp : opTarget (BatchOp.putIfNotExists blockNS blk.hash ser) ≠ (blockNS, topHeightKey) := by
    simp only [opTarget]
    intro he
    have h2 := congrArg (fun p => (Prod.snd p).length) he
    simp only [hlen] at h2
    exact absurd h2 (by decide)
  have hh1 : opTarget (BatchOp.put blockHashHeightMappingNS (hashPrefixBytes ++ blk.hash)
      (uint64ToBytes blk.height)) ≠ (blockNS, topHeightKey) :=
    put_target_ne (by decide) _ _ _
  have hh2 : opTarget (BatchOp.put blockHashHeightMappingNS
      (heightPrefixBytes ++ uint64ToBytes blk.height) blk.hash) ≠ (blockNS, topHeightKey) :=
    put_target_ne (by decide) _ _ _
  have htOp : opTarget (BatchOp.put blockNS totalTransfersKey
      (uint64ToBytes (machineUint64 (S.get blockNS totalTransfersKey).1 +
        blk.Transfers.length))) ≠ (blockNS, topHeightKey) := by
    simp only [opTarget]
    intro he
    have h2 := congrArg Prod.snd he
    simp only at h2
    exact absurd h2 (by decide)
  have hvOp : opTarget (BatchOp.put blockNS totalVotesKey
      (uint64ToBytes (machineUint64 (S.get blockNS totalVotesKey).1 + blk.Votes.length))) ≠
      (blockNS, topHeightKey) := by
    simp only [opTarget]
    intro he
    have h2 := congrArg Prod.snd he
    simp only at h2
    exact absurd h2 (by decide)
  rw [putBlockBatch_decomp]
  rw [applyBatch_cons, applyBatch_cons, applyBatch_cons, applyBatch_append]
  by_cases hcond : blk.height > machineUint64 (S.get blockNS topHeightKey).1
  · rw [if_pos hcond]
    rw [applyBatch_singleton]
    rw [lookup_applyBatch_ne]
    · rw [lookup_applyOp_put_self]
      rw [hsget, machineUint64_uint64ToBytes, Nat.mod_eq_of_lt hH64] at hcond
      rw [Nat.max_eq_right (Nat.le_of_lt hcond)]
    · intro op hop
      rcases List.mem_cons.1 hop with rfl | hop
      · exact htOp
      rcases List.mem_cons.1 hop with rfl | hop
      · exact hvOp
      · exact tail_not_blockNS derive S blk op hop _
  · rw [if_neg hcond]
    rw [applyBatch_nil]
    rw [applyBatch_cons, applyBatch_cons]
    rw [lookup_applyBatch_ne _ _ (fun op hop => tail_not_blockNS derive S blk op hop _)]
    rw [lookup_applyOp_ne _ _ hvOp, lookup_applyOp_ne _ _ htOp, lookup_applyOp_ne _ _ hh2,
      lookup_applyOp_ne _ _ hh1, lookup_applyOp_ne _ _ hp]
    rw [hvH]
    rw [hsget, machineUint64_uint64ToBytes, Nat.mod_eq_of_lt hH64] at hcond
    rw [Nat.max_eq_left (Nat.le_of_not_lt hcond)]

theorem putBlockBatch_payload (derive : Bytes → Option String) (S : Store)
    (blk : Block) (ser : Bytes) (hlen : blk.hash.length = 32) :
    (applyBatch S (putBlockBatch derive S blk ser)).lookup blockNS blk.hash =
      some ((S.lookup blockNS blk.hash).getD ser) := by
  have hkey : ∀ k : Bytes, k.length ≠ 32 → (blockNS, k) ≠ (blockNS, blk.hash) := by
    intro k hk he
    have h2 := congrArg (fun p => (Prod.snd p).length) he
    simp only [hlen] at h2
    exact hk h2
  rw [putBlockBatch_decomp, applyBatch_cons]
  have huntouched : ∀ op ∈ (BatchOp.put blockHashHeightMappingNS (hashPrefixBytes ++ blk.hash)
        (uint64ToBytes blk.height) ::
      BatchOp.put blockHashHeightMappingNS (heightPrefixBytes ++ uint64ToBytes blk.height)
        blk.hash ::
      ((if blk.height > machineUint64 (S.get blockNS topHeightKey).1 then
          [BatchOp.put blockNS topHeightKey (uint64ToBytes blk.height)]
        else []) ++
       (BatchOp.put blockNS totalTransfersKey
          (uint64ToBytes (machineUint64 (S.get blockNS totalTransfersKey).1 +
            blk.Transfers.length)) ::
        BatchOp.put blockNS totalVotesKey
          (uint64ToBytes (machineUint64 (S.get blockNS totalVotesKey).1 + blk.Votes.length)) ::
        (blk.Transfers.map (fun t =>
            BatchOp.put blockTransferBlockMappingNS (transferPrefixBytes ++ t.hash) blk.hash) ++
         (blk.Votes.map (fun v =>
            BatchOp.put blockVoteBlockMappingNS (votePrefixBytes ++ v.hash) blk.hash) ++
          (txOps S blk.Transfers (fun _ => none) (fun _ => none) ++
           voteOps derive S blk.Votes (fun _ => none) (fun _ => none))))))),
      opTarget op ≠ (blockNS, blk.hash) := by
    intro op hop
    rcases List.mem_cons.1 hop with rfl | hop
    · exact put_target_ne (by decide) _ _ _
    rcases List.mem_cons.1 hop with rfl | hop
    · exact put_target_ne (by decide) _ _ _
    rw [List.mem_append] at hop
    rcases hop with hop | hop
    · by_cases hcond : blk.height > machineUint64 (S.get blockNS topHeightKey).1
      · rw [if_pos hcond] at hop
        simp only [List.mem_singleton] at hop
        subst hop
        exact hkey _ (by decide)
      · rw [if_neg hcond] at hop
        simp at hop
    rcases List.mem_cons.1 hop with rfl | hop
    · exact hkey _ (by decide)
    rcases List.mem_cons.1 hop with rfl | hop
    · exact hkey _ (by decide)
    · exact tail_not_blockNS derive S blk op hop _
  rw [lookup_applyBatch_ne _ _ huntouched]
  cases hl : S.lookup blockNS blk.hash with
  | some w =>
    rw [lookup_applyOp_cond_some S ser hl]
    simp [hl]
  | none =>
    rw [lookup_applyOp_cond_none S ser hl]
    simp [hl]

theorem putBlockBatch_vals (derive : Bytes → Option String) (S : Store) (blk : Block)
    (ser : Bytes) (hser : ser ≠ []) (hlen : blk.hash.length = 32)
    (hth : ∀ t ∈ blk.Transfers, t.hash.length = 32)
    (hvh : ∀ v ∈ blk.Votes, v.hash.length = 32) :
    ∀ op ∈ putBlockBatch derive S blk ser, opValue op ≠ [] := by
  have hhash : blk.hash ≠ [] := ne_nil_of_length hlen (by decide)
  rw [putBlockBatch_decomp]
  intro op hop
  rcases List.mem_cons.1 hop with rfl | hop
  · exact hser
  rcases List.mem_cons.1 hop with rfl | hop
  · exact uint64ToBytes_ne_nil _
  rcases List.mem_cons.1 hop with rfl | hop
  · exact hhash
  rw [List.mem_append] at hop
  rcases hop with hop | hop
  · by_cases hcond : blk.height > machineUint64 (S.get blockNS topHeightKey).1
    · rw [if_pos hcond] at hop
      simp only [List.mem_singleton] at hop
      subst hop
      exact uint64ToBytes_ne_nil _
    · rw [if_neg hcond] at hop
      simp at hop
  rcases List.mem_cons.1 hop with rfl | hop
  · exact uint64ToBytes_ne_nil _
  rcases List.mem_cons.1 hop with rfl | hop
  · exact uint64ToBytes_ne_nil _
  rw [List.mem_append] at hop
  rcases hop with hop | hop
  · rcases List.mem_map.1 hop with ⟨t, _, rfl⟩
    exact hhash
  rw [List.mem_append] at hop
  rcases hop with hop | hop
  · rcases List.mem_map.1 hop with ⟨v, _, rfl⟩
    exact hhash
  rw [List.mem_append] at hop
  rcases hop with hop | hop
  · exact txOps_vals S _ _ _
      (fun t ht => ne_nil_of_length (hth t ht) (by decide)) op hop
  · exact voteOps_vals derive S _ _ _
      (fun v hv => ne_nil_of_length (hvh v hv) (by decide)) op hop

/-- Invariant of a well-formed DAO store: no injected read failures, no
empty values, and the three singleton counters hold the 8-byte encodings
of `T` (total transfers), `V` (total votes) and `H` (top height). -/
abbrev DaoInv (S : Store) (T V H : Nat) : Prop :=
  S.failures = [] ∧ NoEmptyVals S ∧
  S.lookup blockNS totalTransfersKey = some (uint64ToBytes T) ∧ T < 2 ^ 64 ∧
  S.lookup blockNS totalVotesKey = some (uint64ToBytes V) ∧ V < 2 ^ 64 ∧
  S.lookup blockNS topHeightKey = some (uint64ToBytes H) ∧ H < 2 ^ 64

theorem putBlock_step (derive : Bytes → Option String) (S : Store) (blk : Block)
    (T V H : Nat) (hInv : DaoInv S T V H) (hwf : BlockWF blk) (hvotes : VotesOK derive blk)
    (hTov : T + blk.Transfers.length < 2 ^ 64) (hVov : V + blk.Votes.length < 2 ^ 64) :
    (putBlock derive S blk true).2 = none ∧
    DaoInv (putBlock derive S blk true).1 (T + blk.Transfers.length) (V + blk.Votes.length)
      (max H blk.height) ∧
    (putBlock derive S blk true).1.lookup blockNS blk.hash =
      some ((S.lookup blockNS blk.hash).getD (blk.serialized.getD [])) ∧
    (∀ ns k, (S.lookup ns k).isSome → ((putBlock derive S blk true).1.lookup ns k).isSome) := by
  obtain ⟨hf, hne, hT, hT64, hV, hV64, hH, hH64⟩ := hInv
  obtain ⟨hlen, hserS, hserNE, hh64, hth, hvh⟩ := hwf
  obtain ⟨ser, hser⟩ := Option.isSome_iff_exists.1 hserS
  have hserne : ser ≠ [] := fun he => hserNE (by rw [hser, he])
  have hok := putBlock_ok derive S blk ser hne hser hf
    (by rw [hH]; rfl) (by rw [hT]; rfl) (by rw [hV]; rfl) hvotes
  rw [hok]
  refine ⟨rfl, ⟨?_, ?_, ?_, hTov, ?_, hVov, ?_, ?_⟩, ?_, ?_⟩
  · exact (applyBatch_failures _ _).trans hf
  · exact noEmptyVals_applyBatch _ hne (putBlockBatch_vals derive S blk ser hserne hlen hth hvh)
  · exact putBlockBatch_totalTransfers derive S blk ser T hf hT hT64
  · exact putBlockBatch_totalVotes derive S blk ser V hf hV hV64
  · exact putBlockBatch_topHeight derive S blk ser H hf hH hH64 hlen
  · exact Nat.max_lt.2 ⟨hH64, hh64⟩
  · rw [putBlockBatch_payload derive S blk ser hlen, hser]
    rfl
  · exact fun ns k h => lookup_applyBatch_isSome _ _ h

/-- Total number of transfers across a list of blocks. -/
def sumTransfers (bs : List Block) : Nat := (bs.map (fun b => b.Transfers.length)).sum

/-- Total number of votes across a list of blocks. -/
def sumVotes (bs : List Block) : Nat := (bs.map (fun b => b.Votes.length)).sum

theorem putChain_cons_ok (derive : Bytes → Option String) (b : Block) (bs : List Block)
    (S : Store) (h : (putBlock derive S b true).2 = none) :
    putChain derive (b :: bs) S = putChain derive bs (putBlock derive S b true).1 := by
  unfold putChain
  dsimp only
  rw [h]
  cases bs <;> rfl

theorem getTotals_of_inv {S : Store} {T V H : Nat} (hInv : DaoInv S T V H) :
    getTotalTransfers S = (T, none) ∧ getTotalVotes S = (V, none) ∧
      getBlockchainHeight S = (H, none) := by
  obtain ⟨hf, _, hT, hT64, hV, hV64, hH, hH64⟩ := hInv
  refine ⟨?_, ?_, ?_⟩
  · unfold getTotalTransfers
    dsimp only
    rw [store_get_of_lookup_some hf hT]
    dsimp only
    rw [if_neg (by simp [uint64ToBytes_length]), machineUint64_uint64ToBytes,
      Nat.mod_eq_of_lt hT64]
  · unfold getTotalVotes
    dsimp only
    rw [store_get_of_lookup_some hf hV]
    dsimp only
    rw [if_neg (by simp [uint64ToBytes_length]), machineUint64_uint64ToBytes,
      Nat.mod_eq_of_lt hV64]
  · unfold getBlockchainHeight
    dsimp only
    rw [store_get_of_lookup_some hf hH]
    dsimp only
    rw [if_neg (by simp [uint64ToBytes_length]), machineUint64_uint64ToBytes,
      Nat.mod_eq_of_lt hH64]

theorem putChain_inv (derive : Bytes → Option String) :
    ∀ (bs : List Block) (S : Store) (T V H : Nat),
      DaoInv S T V H →
      (∀ b ∈ bs, BlockWF b ∧ VotesOK derive b) →
      T + sumTransfers bs < 2 ^ 64 → V + sumVotes bs < 2 ^ 64 →
      (putChain derive bs S).2 = none ∧
      DaoInv (putChain derive bs S).1 (T + sumTransfers bs) (V + sumVotes bs)
        (bs.foldl (fun a b => max a b.height) H) ∧
      (∀ ns k, (S.lookup ns k).isSome → (((putChain derive bs S).1).lookup ns k).isSome) ∧
      (∀ b ∈ bs, (((putChain derive bs S).1).lookup blockNS b.hash).isSome) := by
  intro bs
  induction bs with
  | nil =>
    intro S T V H hInv _ _ _
    refine ⟨rfl, ?_, fun ns k h => h, fun b hb => absurd hb (List.not_mem_nil b)⟩
    simpa [sumTransfers, sumVotes, putChain] using hInv
  | cons b bs ih =>
    intro S T V H hInv hwf hTb hVb
    have hsumT : sumTransfers (b :: bs) = b.Transfers.length + sumTransfers bs := by
      simp [sumTransfers]
    have hsumV : sumVotes (b :: bs) = b.Votes.length + sumVotes bs := by
      simp [sumVotes]
    have hwb := hwf b (List.mem_cons_self _ _)
    have hstep := putBlock_step derive S b T V H hInv hwb.1 hwb.2
      (by rw [hsumT] at hTb; omega) (by rw [hsumV] at hVb; omega)
    obtain ⟨hok, hInv1, hpay, hmono⟩ := hstep
    rw [putChain_cons_ok derive b bs S hok]
    have hrec := ih (putBlock derive S b true).1 (T + b.Transfers.length)
      (V + b.Votes.length) (max H b.height) hInv1
      (fun w hw => hwf w (List.mem_cons_of_mem _ hw))
      (by rw [hsumT] at hTb; omega) (by rw [hsumV] at hVb; omega)
    obtain ⟨hok2, hInv2, hmono2, hpay2⟩ := hrec
    refine ⟨hok2, ?_, ?_, ?_⟩
    · rw [hsumT, hsumV]
      rw [show T + (b.Transfers.length + sumTransfers bs) =
        T + b.Transfers.length + sumTransfers bs by omega]
      rw [show V + (b.Votes.length + sumVotes bs) =
        V + b.Votes.length + sumVotes bs by omega]
      exact hInv2
    · exact fun ns k h => hmono2 ns k (hmono ns k h)
    · intro w hw
      rcases List.mem_cons.1 hw with rfl | hw
      · exact hmono2 _ _ (by rw [hpay]; rfl)
      · exact hpay2 w hw

/-! ### C3: global counters equal the sums over inserted blocks -/

/-- C3.  Starting from a freshly started store, after a sequence of
successful `putBlock` calls on distinct well-formed blocks (with the
running totals below `2 ^ 64`, as the on-disk counters are 64-bit),
`getTotalTransfers` returns the sum of the blocks' transfer counts and
`getTotalVotes` the sum of their vote counts — and all the calls indeed
succeed. -/
theorem totals_after_putChain (derive : Bytes → Option String) (bs : List Block)
    (hwf : ∀ b ∈ bs, BlockWF b ∧ VotesOK derive b)
    (hdist : bs.Pairwise (fun a b => a.hash ≠ b.hash))
    (hT : sumTransfers bs < 2 ^ 64) (hV : sumVotes bs < 2 ^ 64) :
    (putChain derive bs startedStore).2 = none ∧
    getTotalTransfers (putChain derive bs startedStore).1 = (sumTransfers bs, none) ∧
    getTotalVotes (putChain derive bs startedStore).1 = (sumVotes bs, none) := by
  have hInv0 : DaoInv startedStore 0 0 0 := by decide
  have h := putChain_inv derive bs startedStore 0 0 0 hInv0 hwf
    (by omega) (by omega)
  obtain ⟨hok, hInv, _, _⟩ := h
  rw [Nat.zero_add, Nat.zero_add] at hInv
  have hg := getTotals_of_inv hInv
  exact ⟨hok, hg.1, hg.2.1⟩

/-- Witness for C3: two concrete blocks with one and two transfers give
totals (3, 0). -/
theorem totals_after_putChain_witness :
    (putChain exDerive [exB1, exB2] startedStore).2 = none ∧
      getTotalTransfers (putChain exDerive [exB1, exB2] startedStore).1 = (3, none) ∧
      getTotalVotes (putChain exDerive [exB1, exB2] startedStore).1 = (0, none) :=
  totals_after_putChain exDerive [exB1, exB2]
    (by decide) (by decide) (by decide) (by decide)

/-! ### C4: top height is the maximum inserted height -/

/-- C4.  Starting from a freshly started store, after a sequence of
successful `putBlock` calls on well-formed blocks,
`getBlockchainHeight` returns the maximum inserted height (the fold of
`max` over the heights, from the seeded 0): inserting a block whose
height is at most the current top height does not lower it, and every
inserted block is still indexed — its payload key is present in the
`blocks` namespace.  (The totals bounds keep the 64-bit counters exact;
they do not affect the height computation.) -/
theorem topHeight_after_putChain (derive : Bytes → Option String) (bs : List Block)
    (hwf : ∀ b ∈ bs, BlockWF b ∧ VotesOK derive b)
    (hT : sumTransfers bs < 2 ^ 64) (hV : sumVotes bs < 2 ^ 64) :
    (putChain derive bs startedStore).2 = none ∧
    getBlockchainHeight (putChain derive bs startedStore).1 =
      (bs.foldl (fun a b => max a b.height) 0, none) ∧
    (∀ b ∈ bs, (((putChain derive bs startedStore).1).lookup blockNS b.hash).isSome) := by
  have hInv0 : DaoInv startedStore 0 0 0 := by decide
  have h := putChain_inv derive bs startedStore 0 0 0 hInv0 hwf (by omega) (by omega)
  obtain ⟨hok, hInv, _, hpay⟩ := h
  exact ⟨hok, (getTotals_of_inv hInv).2.2, hpay⟩

/-- Witness for C4: blocks at heights 5 then 3 leave the top height at 5
while both payloads stay indexed. -/
theorem topHeight_after_putChain_witness :
    (putChain exDerive [exB5, exB3] startedStore).2 = none ∧
      getBlockchainHeight (putChain exDerive [exB5, exB3] startedStore).1 = (5, none) ∧
      (((putChain exDerive [exB5, exB3] startedStore).1).lookup blockNS exB3.hash).isSome :=
  have h := topHeight_after_putChain exDerive [exB5, exB3] (by decide) (by decide) (by decide)
  ⟨h.1, by rw [h.2.1]; decide, h.2.2 exB3 (by decide)⟩

/-! ### C1: re-inserting an already-stored block -/

/-- C1 counterexample.  Both `putBlock` calls on the same one-transfer
block succeed; the payload is untouched, but the re-insertion doubles
`totalTransfers`, bumps the per-address sender counter from 1 to 2 and
appends a new per-address index entry at sequence 1 — `putBlock` is not
idempotent for the counters and address indexes. -/
theorem putBlock_reinsert_counterexample :
    (putBlock exDerive startedStore exB1 true).2 = none ∧
      (putBlock exDerive exS1 exB1 true).2 = none ∧
      getTotalTransfers exS1 = (1, none) ∧
      getTotalTransfers exS2 = (2, none) ∧
      getTransferCountBySenderAddress exS1 "a" = (1, none) ∧
      getTransferCountBySenderAddress exS2 "a" = (2, none) ∧
      exS2.lookup blockAddressTransferMappingNS
        (transferFromPrefixBytes ++ strBytes "a" ++ uint64ToBytes 1) = some exT1.hash ∧
      exS2.lookup blockNS exB1.hash = some [7] := by
  refine ⟨by decide, by decide, by decide, by decide, by decide, by decide, by decide,
    by decide⟩

/-- C1 amended.  Re-inserting a block whose hash is already stored
leaves the stored payload `blocks[hash(B)]` untouched (the conditional
insert is skipped at commit), and the call still succeeds — but it is
not a no-op: `totalTransfers` grows by `|B.transfers|` and `totalVotes`
by `|B.votes|` (and the per-address indexes receive fresh entries, see
the per-address theorem). -/
theorem putBlock_reinsert (derive : Bytes → Option String) (S : Store) (blk : Block)
    (T V H : Nat) (hInv : DaoInv S T V H) (hwf : BlockWF blk) (hvotes : VotesOK derive blk)
    (hTov : T + blk.Transfers.length < 2 ^ 64) (hVov : V + blk.Votes.length < 2 ^ 64)
    (w : Bytes) (hstored : S.lookup blockNS blk.hash = some w) :
    (putBlock derive S blk true).2 = none ∧
    (putBlock derive S blk true).1.lookup blockNS blk.hash = some w ∧
    getTotalTransfers (putBlock derive S blk true).1 = (T + blk.Transfers.length, none) ∧
    getTotalVotes (putBlock derive S blk true).1 = (V + blk.Votes.length, none) := by
  have hstep := putBlock_step derive S blk T V H hInv hwf hvotes hTov hVov
  obtain ⟨hok, hInv1, hpay, _⟩ := hstep
  have hg := getTotals_of_inv hInv1
  refine ⟨hok, ?_, hg.1, hg.2.1⟩
  rw [hpay, hstored]
  rfl

/-- Witness for C1's amended theorem: the concrete store holding `exB1`
re-receives `exB1`; the payload value is preserved and the totals grow. -/
theorem putBlock_reinsert_witness :
    (putBlock exDerive exS1 exB1 true).2 = none ∧
      (putBlock exDerive exS1 exB1 true).1.lookup blockNS exB1.hash = some [7] ∧
      getTotalTransfers (putBlock exDerive exS1 exB1 true).1 = (2, none) ∧
      getTotalVotes (putBlock exDerive exS1 exB1 true).1 = (0, none) :=
  putBlock_reinsert exDerive exS1 exB1 1 0 1 (by decide) (by decide) (by decide)
    (by decide) (by decide) [7] (by decide)

/-! ### C5: per-address append with in-batch delta tracking -/

theorem append_head_mismatch {p q : Bytes} (i : Nat) (hip : i < p.length) (hiq : i < q.length)
    (hne : p[i]? ≠ q[i]?) : ∀ x y : Bytes, p ++ x ≠ q ++ y := by
  intro x y he
  apply hne
  have h1 : (p ++ x)[i]? = p[i]? := by rw [List.getElem?_append, if_pos hip]
  have h2 : (q ++ y)[i]? = q[i]? := by rw [List.getElem?_append, if_pos hiq]
  rw [← h1, ← h2, he]

theorem fromTo_append_ne (x y : Bytes) :
    transferFromPrefixBytes ++ x ≠ transferToPrefixBytes ++ y :=
  append_head_mismatch 9 (by decide) (by decide) (by decide) x y

theorem entry_key_addr_inj {pfx : Bytes} {a b : String} {m n : Nat}
    (h : pfx ++ strBytes a ++ uint64ToBytes m = pfx ++ strBytes b ++ uint64ToBytes n) :
    a = b := by
  have h2 := (List.append_inj' h (by rw [uint64ToBytes_length, uint64ToBytes_length])).1
  exact strBytes_inj (List.append_cancel_left h2)

theorem entry_key_seq_inj {pfx : Bytes} {a b : String} {m n : Nat} (hm : m < 2 ^ 64)
    (hn : n < 2 ^ 64)
    (h : pfx ++ strBytes a ++ uint64ToBytes m = pfx ++ strBytes b ++ uint64ToBytes n) :
    m = n := by
  have h2 := (List.append_inj' h (by rw [uint64ToBytes_length, uint64ToBytes_length])).2
  exact uint64ToBytes_inj hm hn h2

theorem count_key_inj {pfx : Bytes} {a b : String} (h : pfx ++ strBytes a = pfx ++ strBytes b) :
    a = b :=
  strBytes_inj (List.append_cancel_left h)

theorem target_ne_of_key {ns : String} {k k' : Bytes} (h : k ≠ k') :
    ((ns, k) : String × Bytes) ≠ (ns, k') := fun he => h (congrArg Prod.snd he)

theorem lookup_applyOp_put_ne' (s : Store) (ns : String) (key v : Bytes) {ns' : String}
    {key' : Bytes} (h : ((ns, key) : String × Bytes) ≠ (ns', key')) :
    (applyOp s (BatchOp.put ns key v)).lookup ns' key' = s.lookup ns' key' :=
  lookup_applyOp_ne s _ (by simpa [opTarget] using h)

theorem lookup_applyOp_pine_ne' (s : Store) (ns : String) (key v : Bytes) {ns' : String}
    {key' : Bytes} (h : ((ns, key) : String × Bytes) ≠ (ns', key')) :
    (applyOp s (BatchOp.putIfNotExists ns key v)).lookup ns' key' = s.lookup ns' key' :=
  lookup_applyOp_ne s _ (by simpa [opTarget] using h)

theorem lookup_applyOp_ns_ne (s : Store) (op : BatchOp) {ns' : String} {key' : Bytes}
    (h : (opTarget op).1 ≠ ns') : (applyOp s op).lookup ns' key' = s.lookup ns' key' :=
  lookup_applyOp_ne s op (ne_target_of_ns h)

theorem from_to_entry_ne (a b : String) (m n : Nat) :
    transferFromPrefixBytes ++ strBytes a ++ uint64ToBytes m ≠
      transferToPrefixBytes ++ strBytes b ++ uint64ToBytes n := by
  rw [List.append_assoc, List.append_assoc]
  exact fromTo_append_ne _ _

theorem from_to_count_ne (a b : String) :
    transferFromPrefixBytes ++ strBytes a ≠ transferToPrefixBytes ++ strBytes b :=
  fromTo_append_ne _ _

/-- Effect of the staged per-address transfer operations on the sender
side of one address `A`: starting from delta `m` and on-disk count `c`,
the `k` transfers sent by `A` in `ts` are staged at the contiguous
sequence numbers `c + m, …, c + m + k - 1`, the stored counter ends at
`c + m + k` (untouched when `k = 0`), and entries below `c + m` are
preserved. -/
theorem txOps_sender_effect (dao : Store) (A : String) (c : Nat)
    (hc : c = (getTransferCountBySenderAddress dao A).1) :
    ∀ (ts : List Transfer) (sd rd : String → Option Nat) (S0 : Store) (m : Nat),
      sd A = (if m = 0 then none else some m) →
      c + m + (ts.filter (fun t => t.Sender = A)).length < 2 ^ 64 →
      (∀ n, c + m ≤ n → n < 2 ^ 64 →
        S0.lookup blockAddressTransferMappingNS
          (transferFromPrefixBytes ++ strBytes A ++ uint64ToBytes n) = none) →
      (∀ j t, (ts.filter (fun t => t.Sender = A))[j]? = some t →
        (applyBatch S0 (txOps dao ts sd rd)).lookup blockAddressTransferMappingNS
          (transferFromPrefixBytes ++ strBytes A ++ uint64ToBytes (c + m + j)) =
          some t.hash) ∧
      ((applyBatch S0 (txOps dao ts sd rd)).lookup blockAddressTransferCountMappingNS
          (transferFromPrefixBytes ++ strBytes A) =
        if (ts.filter (fun t => t.Sender = A)).length = 0 then
          S0.lookup blockAddressTransferCountMappingNS (transferFromPrefixBytes ++ strBytes A)
        else some (uint64ToBytes (c + m + (ts.filter (fun t => t.Sender = A)).length))) ∧
      (∀ n, n < c + m →
        (applyBatch S0 (txOps dao ts sd rd)).lookup blockAddressTransferMappingNS
          (transferFromPrefixBytes ++ strBytes A ++ uint64ToBytes n) =
        S0.lookup blockAddressTransferMappingNS
          (transferFromPrefixBytes ++ strBytes A ++ uint64ToBytes n)) := by
  intro ts
  induction ts with
  | nil =>
    intro sd rd S0 m hsd hb hfresh
    refine ⟨?_, ?_, ?_⟩
    · intro j t hjt
      simp at hjt
    · simp [txOps, applyBatch_nil]
    · intro n _
      simp [txOps, applyBatch_nil]
  | cons t ts ih =>
    intro sd rd S0 m hsd hb hfresh
    by_cases ht : t.Sender = A
    · subst ht
      have hfilter : ((t :: ts).filter (fun u => u.Sender = t.Sender)) =
          t :: ts.filter (fun u => u.Sender = t.Sender) := by
        rw [List.filter_cons_of_pos]
        simp
      have hsc : (match sd t.Sender with
          | some delta => (getTransferCountBySenderAddress dao t.Sender).1 + delta
          | none => (getTransferCountBySenderAddress dao t.Sender).1) = c + m := by
        cases m with
        | zero =>
          have h0 : sd t.Sender = none := by simpa using hsd
          rw [h0]
          simp [← hc]
        | succ m0 =>
          have h1 : sd t.Sender = some (m0 + 1) := by simpa using hsd
          rw [h1]
          simp [← hc]
      have hk1 : ((t :: ts).filter (fun u => u.Sender = t.Sender)).length =
          (ts.filter (fun u => u.Sender = t.Sender)).length + 1 := by
        rw [hfilter, List.length_cons]
      have hcm64 : c + m < 2 ^ 64 := by
        rw [hk1] at hb
        omega
      unfold txOps
      dsimp only
      rw [hsc]
      rw [List.cons_append, List.cons_append, List.cons_append, List.singleton_append]
      rw [applyBatch_cons, applyBatch_cons, applyBatch_cons, applyBatch_cons]
      have hS1pay : (applyOp S0 (BatchOp.putIfNotExists blockAddressTransferMappingNS
          (transferFromPrefixBytes ++ strBytes t.Sender ++ uint64ToBytes (c + m)) t.hash)).lookup
          blockAddressTransferMappingNS
          (transferFromPrefixBytes ++ strBytes t.Sender ++ uint64ToBytes (c + m)) =
          some t.hash :=
        lookup_applyOp_cond_none _ _ (hfresh (c + m) (Nat.le_refl _) hcm64)
      have hkeep : ∀ (s : Store) (n : Nat),
          ((applyOp (applyOp (applyOp s
            (BatchOp.put blockAddressTransferCountMappingNS
              (transferFromPrefixBytes ++ strBytes t.Sender) (uint64ToBytes (c + m + 1))))
            (BatchOp.putIfNotExists blockAddressTransferMappingNS
              (transferToPrefixBytes ++ strBytes t.Recipient ++ uint64ToBytes
                (match rd t.Recipient with
                  | some delta => (getTransferCountByRecipientAddress dao t.Recipient).1 + delta
                  | none => (getTransferCountByRecipientAddress dao t.Recipient).1)) t.hash))
            (BatchOp.put blockAddressTransferCountMappingNS
              (transferToPrefixBytes ++ strBytes t.Recipient) (uint64ToBytes
                ((match rd t.Recipient with
                  | some delta => (getTransferCountByRecipientAddress dao t.Recipient).1 + delta
                  | none => (getTransferCountByRecipientAddress dao t.Recipient).1) + 1)))).lookup
            blockAddressTransferMappingNS
            (transferFromPrefixBytes ++ strBytes t.Sender ++ uint64ToBytes n)) =
          s.lookup blockAddressTransferMappingNS
            (transferFromPrefixBytes ++ strBytes t.Sender ++ uint64ToBytes n) := by
        intro s n
        rw [lookup_applyOp_ns_ne _ _ (by simp only [opTarget]; decide),
          lookup_applyOp_pine_ne' _ _ _ _
            (target_ne_of_key (from_to_entry_ne _ _ _ _).symm),
          lookup_applyOp_ns_ne _ _ (by simp only [opTarget]; decide)]
      have hcount4 : ∀ s : Store,
          ((applyOp (applyOp (applyOp s
            (BatchOp.put blockAddressTransferCountMappingNS
              (transferFromPrefixBytes ++ strBytes t.Sender) (uint64ToBytes (c + m + 1))))
            (BatchOp.putIfNotExists blockAddressTransferMappingNS
              (transferToPrefixBytes ++ strBytes t.Recipient ++ uint64ToBytes
                (match rd t.Recipient with
                  | some delta => (getTransferCountByRecipientAddress dao t.Recipient).1 + delta
                  | none => (getTransferCountByRecipientAddress dao t.Recipient).1)) t.hash))
            (BatchOp.put blockAddressTransferCountMappingNS
              (transferToPrefixBytes ++ strBytes t.Recipient) (uint64ToBytes
                ((match rd t.Recipient with
                  | some delta => (getTransferCountByRecipientAddress dao t.Recipient).1 + delta
                  | none => (getTransferCountByRecipientAddress dao t.Recipient).1) + 1)))).lookup
            blockAddressTransferCountMappingNS
            (transferFromPrefixBytes ++ strBytes t.Sender)) =
          some (uint64ToBytes (c + m + 1)) := by
        intro s
        rw [lookup_applyOp_put_ne' _ _ _ _
            (target_ne_of_key (from_to_count_ne _ _).symm),
          lookup_applyOp_ns_ne _ _ (by simp only [opTarget]; decide),
          lookup_applyOp_put_self]
      have hsd' : (fun x => if x = t.Sender then
          (match sd t.Sender with
            | some delta => some (delta + 1)
            | none => some 1)
          else sd x) t.Sender = (if m + 1 = 0 then none else some (m + 1)) := by
        cases m with
        | zero =>
          have h0 : sd t.Sender = none := by simpa using hsd
          simp [h0]
        | succ m0 =>
          have h1 : sd t.Sender = some (m0 + 1) := by simpa using hsd
          simp [h1]
      have hb' : c + (m + 1) + (ts.filter (fun u => u.Sender = t.Sender)).length < 2 ^ 64 := by
        rw [hk1] at hb
        omega
      have hfresh' : ∀ n, c + (m + 1) ≤ n → n < 2 ^ 64 →
          ((applyOp (applyOp (applyOp (applyOp S0
            (BatchOp.putIfNotExists blockAddressTransferMappingNS
              (transferFromPrefixBytes ++ strBytes t.Sender ++ uint64ToBytes (c + m)) t.hash))
            (BatchOp.put blockAddressTransferCountMappingNS
              (transferFromPrefixBytes ++ strBytes t.Sender) (uint64ToBytes (c + m + 1))))
            (BatchOp.putIfNotExists blockAddressTransferMappingNS
              (transferToPrefixBytes ++ strBytes t.Recipient ++ uint64ToBytes
                (match rd t.Recipient with
                  | some delta => (getTransferCountByRecipientAddress dao t.Recipient).1 + delta
                  | none => (getTransferCountByRecipientAddress dao t.Recipient).1)) t.hash))
            (BatchOp.put blockAddressTransferCountMappingNS
              (transferToPrefixBytes ++ strBytes t.Recipient) (uint64ToBytes
                ((match rd t.Recipient with
                  | some delta => (getTransferCountByRecipientAddress dao t.Recipient).1 + delta
                  | none => (getTransferCountByRecipientAddress dao t.Recipient).1) + 1)))).lookup
            blockAddressTransferMappingNS
            (transferFromPrefixBytes ++ strBytes t.Sender ++ uint64ToBytes n)) = none := by
        intro n hn hn64
        rw [hkeep]
        rw [lookup_applyOp_pine_ne' _ _ _ _ (target_ne_of_key
          (fun he => absurd (entry_key_seq_inj hcm64 hn64 he) (by omega)))]
        exact hfresh n (by omega) hn64
      have ihres := ih (fun x => if x = t.Sender then
          (match sd t.Sender with
            | some delta => some (delta + 1)
            | none => some 1)
          else sd x)
        (fun x => if x = t.Recipient then
          (match rd t.Recipient with
            | some delta => some (delta + 1)
            | none => some 1)
          else rd x)
        (applyOp (applyOp (applyOp (applyOp S0
            (BatchOp.putIfNotExists blockAddressTransferMappingNS
              (transferFromPrefixBytes ++ strBytes t.Sender ++ uint64ToBytes (c + m)) t.hash))
            (BatchOp.put blockAddressTransferCountMappingNS
              (transferFromPrefixBytes ++ strBytes t.Sender) (uint64ToBytes (c + m + 1))))
            (BatchOp.putIfNotExists blockAddressTransferMappingNS
              (transferToPrefixBytes ++ strBytes t.Recipient ++ uint64ToBytes
                (match rd t.Recipient with
                  | some delta => (getTransferCountByRecipientAddress dao t.Recipient).1 + delta
                  | none => (getTransferCountByRecipientAddress dao t.Recipient).1)) t.hash))
            (BatchOp.put blockAddressTransferCountMappingNS
              (transferToPrefixBytes ++ strBytes t.Recipient) (uint64ToBytes
                ((match rd t.Recipient with
                  | some delta => (getTransferCountByRecipientAddress dao t.Recipient).1 + delta
                  | none => (getTransferCountByRecipientAddress dao t.Recipient).1) + 1))))
        (m + 1) hsd' hb' hfresh'
      refine ⟨?_, ?_, ?_⟩
      · intro j u hju
        rw [hfilter] at hju
        cases j with
        | zero =>
          rw [List.getElem?_cons_zero] at hju
          injection hju with hju
          subst hju
          rw [show c + m + 0 = c + m by omega]
          rw [ihres.2.2 (c + m) (by omega)]
          rw [hkeep]
          exact hS1pay
        | succ j0 =>
          rw [List.getElem?_cons_succ] at hju
          rw [show c + m + (j0 + 1) = c + (m + 1) + j0 by omega]
          exact ihres.1 j0 u hju
      · rw [hk1]
        rw [if_neg (Nat.succ_ne_zero _)]
        rcases Nat.eq_zero_or_pos ((ts.filter (fun u => u.Sender = t.Sender)).length) with
          hkz | hkp
        · have h2 := ihres.2.1
          rw [hkz, if_pos rfl] at h2
          rw [hkz]
          rw [h2, hcount4]
        · have h2 := ihres.2.1
          rw [if_neg (by omega)] at h2
          rw [show c + m + ((ts.filter (fun u => u.Sender = t.Sender)).length + 1) =
            c + (m + 1) + (ts.filter (fun u => u.Sender = t.Sender)).length by omega]
          exact h2
      · intro n hn
        rw [ihres.2.2 n (by omega)]
        rw [hkeep]
        rw [lookup_applyOp_pine_ne' _ _ _ _ (target_ne_of_key
          (fun he => absurd (entry_key_seq_inj hcm64 (by omega) he) (by omega)))]
    · have hfilter : ((t :: ts).filter (fun u => u.Sender = A)) =
          ts.filter (fun u => u.Sender = A) := by
        rw [List.filter_cons_of_neg]
        simp [ht]
      unfold txOps
      dsimp only
      rw [List.cons_append, List.cons_append, List.cons_append, List.singleton_append]
      rw [applyBatch_cons, applyBatch_cons, applyBatch_cons, applyBatch_cons]
      have hkeep : ∀ (s : Store) (n : Nat),
          ((applyOp (applyOp (applyOp (applyOp s
            (BatchOp.putIfNotExists blockAddressTransferMappingNS
              (transferFromPrefixBytes ++ strBytes t.Sender ++ uint64ToBytes
                (match sd t.Sender with
                  | some delta => (getTransferCountBySenderAddress dao t.Sender).1 + delta
                  | none => (getTransferCountBySenderAddress dao t.Sender).1)) t.hash))
            (BatchOp.put blockAddressTransferCountMappingNS
              (transferFromPrefixBytes ++ strBytes t.Sender) (uint64ToBytes
                ((match sd t.Sender with
                  | some delta => (getTransferCountBySenderAddress dao t.Sender).1 + delta
                  | none => (getTransferCountBySenderAddress dao t.Sender).1) + 1))))
            (BatchOp.putIfNotExists blockAddressTransferMappingNS
              (transferToPrefixBytes ++ strBytes t.Recipient ++ uint64ToBytes
                (match rd t.Recipient with
                  | some delta => (getTransferCountByRecipientAddress dao t.Recipient).1 + delta
                  | none => (getTransferCountByRecipientAddress dao t.Recipient).1)) t.hash))
            (BatchOp.put blockAddressTransferCountMappingNS
              (transferToPrefixBytes ++ strBytes t.Recipient) (uint64ToBytes
                ((match rd t.Recipient with
                  | some delta => (getTransferCountByRecipientAddress dao t.Recipient).1 + delta
                  | none => (getTransferCountByRecipientAddress dao t.Recipient).1) + 1)))).lookup
            blockAddressTransferMappingNS
            (transferFromPrefixBytes ++ strBytes A ++ uint64ToBytes n)) =
          s.lookup blockAddressTransferMappingNS
            (transferFromPrefixBytes ++ strBytes A ++ uint64ToBytes n) := by
        intro s n
        rw [lookup_applyOp_ns_ne _ _ (by simp only [opTarget]; decide),
          lookup_applyOp_pine_ne' _ _ _ _
            (target_ne_of_key (from_to_entry_ne _ _ _ _).symm),
          lookup_applyOp_ns_ne _ _ (by simp only [opTarget]; decide),
          lookup_applyOp_pine_ne' _ _ _ _
            (target_ne_of_key (fun he => ht (entry_key_addr_inj he)))]
      have hkeepc : ∀ (s : Store),
          ((applyOp (applyOp (applyOp (applyOp s
            (BatchOp.putIfNotExists blockAddressTransferMappingNS
              (transferFromPrefixBytes ++ strBytes t.Sender ++ uint64ToBytes
                (match sd t.Sender with
                  | some delta => (getTransferCountBySenderAddress dao t.Sender).1 + delta
                  | none => (getTransferCountBySenderAddress dao t.Sender).1)) t.hash))
            (BatchOp.put blockAddressTransferCountMappingNS
              (transferFromPrefixBytes ++ strBytes t.Sender) (uint64ToBytes
                ((match sd t.Sender with
                  | some delta => (getTransferCountBySenderAddress dao t.Sender).1 + delta
                  | none => (getTransferCountBySenderAddress dao t.Sender).1) + 1))))
            (BatchOp.putIfNotExists blockAddressTransferMappingNS
              (transferToPrefixBytes ++ strBytes t.Recipient ++ uint64ToBytes
                (match rd t.Recipient with
                  | some delta => (getTransferCountByRecipientAddress dao t.Recipient).1 + delta
                  | none => (getTransferCountByRecipientAddress dao t.Recipient).1)) t.hash))
            (BatchOp.put blockAddressTransferCountMappingNS
              (transferToPrefixBytes ++ strBytes t.Recipient) (uint64ToBytes
                ((match rd t.Recipient with
                  | some delta => (getTransferCountByRecipientAddress dao t.Recipient).1 + delta
                  | none => (getTransferCountByRecipientAddress dao t.Recipient).1) + 1)))).lookup
            blockAddressTransferCountMappingNS
            (transferFromPrefixBytes ++ strBytes A)) =
          s.lookup blockAddressTransferCountMappingNS
            (transferFromPrefixBytes ++ strBytes A) := by
        intro s
        rw [lookup_applyOp_put_ne' _ _ _ _
            (target_ne_of_key (from_to_count_ne _ _).symm),
          lookup_applyOp_ns_ne _ _ (by simp only [opTarget]; decide),
          lookup_applyOp_put_ne' _ _ _ _
            (target_ne_of_key (fun he => ht (count_key_inj he))),
          lookup_applyOp_ns_ne _ _ (by simp only [opTarget]; decide)]
      have hsd' : (fun x => if x = t.Sender then
          (match sd t.Sender with
            | some delta => some (delta + 1)
            | none => some 1)
          else sd x) A = (if m = 0 then none else some m) := by
        dsimp only
        rw [if_neg (show ¬(A = t.Sender) from fun h => ht h.symm)]
        exact hsd
      have hb' : c + m + (ts.filter (fun u => u.Sender = A)).length < 2 ^ 64 := by
        rw [hfilter] at hb
        exact hb
      have hfresh' : ∀ n, c + m ≤ n → n < 2 ^ 64 → True := fun _ _ _ => trivial
      have ihres := ih (fun x => if x = t.Sender then
          (match sd t.Sender with
            | some delta => some (delta + 1)
            | none => some 1)
          else sd x)
        (fun x => if x = t.Recipient then
          (match rd t.Recipient with
            | some delta => some (delta + 1)
            | none => some 1)
          else rd x)
        (applyOp (applyOp (applyOp (applyOp S0
            (BatchOp.putIfNotExists blockAddressTransferMappingNS
              (transferFromPrefixBytes ++ strBytes t.Sender ++ uint64ToBytes
                (match sd t.Sender with
                  | some delta => (getTransferCountBySenderAddress dao t.Sender).1 + delta
                  | none => (getTransferCountBySenderAddress dao t.Sender).1)) t.hash))
            (BatchOp.put blockAddressTransferCountMappingNS
              (transferFromPrefixBytes ++ strBytes t.Sender) (uint64ToBytes
                ((match sd t.Sender with
                  | some delta => (getTransferCountBySenderAddress dao t.Sender).1 + delta
                  | none => (getTransferCountBySenderAddress dao t.Sender).1) + 1))))
            (BatchOp.putIfNotExists blockAddressTransferMappingNS
              (transferToPrefixBytes ++ strBytes t.Recipient ++ uint64ToBytes
                (match rd t.Recipient with
                  | some delta => (getTransferCountByRecipientAddress dao t.Recipient).1 + delta
                  | none => (getTransferCountByRecipientAddress dao t.Recipient).1)) t.hash))
            (BatchOp.put blockAddressTransferCountMappingNS
              (transferToPrefixBytes ++ strBytes t.Recipient) (uint64ToBytes
                ((match rd t.Recipient with
                  | some delta => (getTransferCountByRecipientAddress dao t.Recipient).1 + delta
                  | none => (getTransferCountByRecipientAddress dao t.Recipient).1) + 1))))
        m hsd' hb' (fun n hn hn64 => by
          rw [hkeep]
          exact hfresh n hn hn64)
      refine ⟨?_, ?_, ?_⟩
      · intro j u hju
        rw [hfilter] at hju
        exact ihres.1 j u hju
      · rw [hfilter]
        rcases Nat.eq_zero_or_pos ((ts.filter (fun u => u.Sender = A)).length) with hkz | hkp
        · have h2 := ihres.2.1
          rw [hkz, if_pos rfl] at h2
          rw [hkz, if_pos rfl]
          rw [h2, hkeepc]
        · have h2 := ihres.2.1
          rw [if_neg (by omega)] at h2
          rw [if_neg (by omega)]
          exact h2
      · intro n hn
        rw [ihres.2.2 n hn]
        rw [hkeep]

/-- Mirror of `txOps_sender_effect` for the recipient side of one
address `A`: the `k` transfers received by `A` in `ts` are staged at the
contiguous sequence numbers `c + m, …, c + m + k - 1` under the
"transfer-to." prefix, the stored recipient counter ends at `c + m + k`
(untouched when `k = 0`), and entries below `c + m` are preserved. -/
theorem txOps_recipient_effect (dao : Store) (A : String) (c : Nat)
    (hc : c = (getTransferCountByRecipientAddress dao A).1) :
    ∀ (ts : List Transfer) (sd rd : String → Option Nat) (S0 : Store) (m : Nat),
      rd A = (if m = 0 then none else some m) →
      c + m + (ts.filter (fun t => t.Recipient = A)).length < 2 ^ 64 →
      (∀ n, c + m ≤ n → n < 2 ^ 64 →
        S0.lookup blockAddressTransferMappingNS
          (transferToPrefixBytes ++ strBytes A ++ uint64ToBytes n) = none) →
      (∀ j t, (ts.filter (fun t => t.Recipient = A))[j]? = some t →
        (applyBatch S0 (txOps dao ts sd rd)).lookup blockAddressTransferMappingNS
          (transferToPrefixBytes ++ strBytes A ++ uint64ToBytes (c + m + j)) =
          some t.hash) ∧
      ((applyBatch S0 (txOps dao ts sd rd)).lookup blockAddressTransferCountMappingNS
          (transferToPrefixBytes ++ strBytes A) =
        if (ts.filter (fun t => t.Recipient = A)).length = 0 then
          S0.lookup blockAddressTransferCountMappingNS (transferToPrefixBytes ++ strBytes A)
        else some (uint64ToBytes (c + m + (ts.filter (fun t => t.Recipient = A)).length))) ∧
      (∀ n, n < c + m →
        (applyBatch S0 (txOps dao ts sd rd)).lookup blockAddressTransferMappingNS
          (transferToPrefixBytes ++ strBytes A ++ uint64ToBytes n) =
        S0.lookup blockAddressTransferMappingNS
          (transferToPrefixBytes ++ strBytes A ++ uint64ToBytes n)) := by
  intro ts
  induction ts with
  | nil =>
    intro sd rd S0 m hrd hb hfresh
    refine ⟨?_, ?_, ?_⟩
    · intro j t hjt
      simp at hjt
    · simp [txOps, applyBatch_nil]
    · intro n _
      simp [txOps, applyBatch_nil]
  | cons t ts ih =>
    intro sd rd S0 m hrd hb hfresh
    by_cases ht : t.Recipient = A
    · subst ht
      have hfilter : ((t :: ts).filter (fun u => u.Recipient = t.Recipient)) =
          t :: ts.filter (fun u => u.Recipient = t.Recipient) := by
        rw [List.filter_cons_of_pos]
        simp
      have hsc : (match rd t.Recipient with
          | some delta => (getTransferCountByRecipientAddress dao t.Recipient).1 + delta
          | none => (getTransferCountByRecipientAddress dao t.Recipient).1) = c + m := by
        cases m with
        | zero =>
          have h0 : rd t.Recipient = none := by simpa using hrd
          rw [h0]
          simp [← hc]
        | succ m0 =>
          have h1 : rd t.Recipient = some (m0 + 1) := by simpa using hrd
          rw [h1]
          simp [← hc]
      have hk1 : ((t :: ts).filter (fun u => u.Recipient = t.Recipient)).length =
          (ts.filter (fun u => u.Recipient = t.Recipient)).length + 1 := by
        rw [hfilter, List.length_cons]
      have hcm64 : c + m < 2 ^ 64 := by
        rw [hk1] at hb
        omega
      unfold txOps
      dsimp only
      rw [hsc]
      rw [List.cons_append, List.cons_append, List.cons_append, List.singleton_append]
      rw [applyBatch_cons, applyBatch_cons, applyBatch_cons, applyBatch_cons]
      have hpre : ∀ (s : Store) (n : Nat),
          ((applyOp (applyOp s
            (BatchOp.putIfNotExists blockAddressTransferMappingNS
              (transferFromPrefixBytes ++ strBytes t.Sender ++ uint64ToBytes
                (match sd t.Sender with
                  | some delta => (getTransferCountBySenderAddress dao t.Sender).1 + delta
                  | none => (getTransferCountBySenderAddress dao t.Sender).1)) t.hash))
            (BatchOp.put blockAddressTransferCountMappingNS
              (transferFromPrefixBytes ++ strBytes t.Sender) (uint64ToBytes
                ((match sd t.Sender with
                  | some delta => (getTransferCountBySenderAddress dao t.Sender).1 + delta
                  | none => (getTransferCountBySenderAddress dao t.Sender).1) + 1)))).lookup
            blockAddressTransferMappingNS
            (transferToPrefixBytes ++ strBytes t.Recipient ++ uint64ToBytes n)) =
          s.lookup blockAddressTransferMappingNS
            (transferToPrefixBytes ++ strBytes t.Recipient ++ uint64ToBytes n) := by
        intro s n
        rw [lookup_applyOp_ns_ne _ _ (by simp only [opTarget]; decide),
          lookup_applyOp_pine_ne' _ _ _ _
            (target_ne_of_key (from_to_entry_ne _ _ _ _))]
      have hS3pay : ∀ s : Store,
          s.lookup blockAddressTransferMappingNS
            (transferToPrefixBytes ++ strBytes t.Recipient ++ uint64ToBytes (c + m)) = none →
          ((applyOp s
            (BatchOp.putIfNotExists blockAddressTransferMappingNS
              (transferToPrefixBytes ++ strBytes t.Recipient ++ uint64ToBytes (c + m))
              t.hash)).lookup blockAddressTransferMappingNS
            (transferToPrefixBytes ++ strBytes t.Recipient ++ uint64ToBytes (c + m))) =
            some t.hash :=
        fun s hs => lookup_applyOp_cond_none _ _ hs
      have hsd' : (fun x => if x = t.Recipient then
          (match rd t.Recipient with
            | some delta => some (delta + 1)
            | none => some 1)
          else rd x) t.Recipient = (if m + 1 = 0 then none else some (m + 1)) := by
        cases m with
        | zero =>
          have h0 : rd t.Recipient = none := by simpa using hrd
          simp [h0]
        | succ m0 =>
          have h1 : rd t.Recipient = some (m0 + 1) := by simpa using hrd
          simp [h1]
      have hb' : c + (m + 1) + (ts.filter (fun u => u.Recipient = t.Recipient)).length <
          2 ^ 64 := by
        rw [hk1] at hb
        omega
      have hfresh' : ∀ n, c + (m + 1) ≤ n → n < 2 ^ 64 →
          ((applyOp (applyOp (applyOp (applyOp S0
            (BatchOp.putIfNotExists blockAddressTransferMappingNS
              (transferFromPrefixBytes ++ strBytes t.Sender ++ uint64ToBytes
                (match sd t.Sender with
                  | some delta => (getTransferCountBySenderAddress dao t.Sender).1 + delta
                  | none => (getTransferCountBySenderAddress dao t.Sender).1)) t.hash))
            (BatchOp.put blockAddressTransferCountMappingNS
              (transferFromPrefixBytes ++ strBytes t.Sender) (uint64ToBytes
                ((match sd t.Sender with
                  | some delta => (getTransferCountBySenderAddress dao t.Sender).1 + delta
                  | none => (getTransferCountBySenderAddress dao t.Sender).1) + 1))))
            (BatchOp.putIfNotExists blockAddressTransferMappingNS
              (transferToPrefixBytes ++ strBytes t.Recipient ++ uint64ToBytes (c + m)) t.hash))
            (BatchOp.put blockAddressTransferCountMappingNS
              (transferToPrefixBytes ++ strBytes t.Recipient)
              (uint64ToBytes (c + m + 1)))).lookup
            blockAddressTransferMappingNS
            (transferToPrefixBytes ++ strBytes t.Recipient ++ uint64ToBytes n)) = none := by
        intro n hn hn64
        rw [lookup_applyOp_ns_ne _ _ (by simp only [opTarget]; decide)]
        rw [lookup_applyOp_pine_ne' _ _ _ _ (target_ne_of_key
          (fun he => absurd (entry_key_seq_inj hcm64 hn64 he) (by omega)))]
        rw [hpre]
        exact hfresh n (by omega) hn64
      have ihres := ih
        (fun x => if x = t.Sender then
          (match sd t.Sender with
            | some delta => some (delta + 1)
            | none => some 1)
          else sd x)
        (fun x => if x = t.Recipient then
          (match rd t.Recipient with
            | some delta => some (delta + 1)
            | none => some 1)
          else rd x)
        (applyOp (applyOp (applyOp (applyOp S0
          (BatchOp.putIfNotExists blockAddressTransferMappingNS
            (transferFromPrefixBytes ++ strBytes t.Sender ++ uint64ToBytes
              (match sd t.Sender with
                | some delta => (getTransferCountBySenderAddress dao t.Sender).1 + delta
                | none => (getTransferCountBySenderAddress dao t.Sender).1)) t.hash))
          (BatchOp.put blockAddressTransferCountMappingNS
            (transferFromPrefixBytes ++ strBytes t.Sender) (uint64ToBytes
              ((match sd t.Sender with
                | some delta => (getTransferCountBySenderAddress dao t.Sender).1 + delta
                | none => (getTransferCountBySenderAddress dao t.Sender).1) + 1))))
          (BatchOp.putIfNotExists blockAddressTransferMappingNS
            (transferToPrefixBytes ++ strBytes t.Recipient ++ uint64ToBytes (c + m)) t.hash))
          (BatchOp.put blockAddressTransferCountMappingNS
            (transferToPrefixBytes ++ strBytes t.Recipient)
            (uint64ToBytes (c + m + 1))))
        (m + 1) hsd' hb' hfresh'
      refine ⟨?_, ?_, ?_⟩
      · intro j u hju
        rw [hfilter] at hju
        cases j with
        | zero =>
          rw [List.getElem?_cons_zero] at hju
          injection hju with hju
          subst hju
          rw [show c + m + 0 = c + m by omega]
          rw [ihres.2.2 (c + m) (by omega)]
          rw [lookup_applyOp_ns_ne _ _ (by simp only [opTarget]; decide)]
          exact hS3pay _ (by rw [hpre]; exact hfresh (c + m) (Nat.le_refl _) hcm64)
        | succ j0 =>
          rw [List.getElem?_cons_succ] at hju
          rw [show c + m + (j0 + 1) = c + (m + 1) + j0 by omega]
          exact ihres.1 j0 u hju
      · rw [hk1]
        rw [if_neg (Nat.succ_ne_zero _)]
        rcases Nat.eq_zero_or_pos ((ts.filter (fun u => u.Recipient = t.Recipient)).length) with
          hkz | hkp
        · have h2 := ihres.2.1
          rw [hkz, if_pos rfl] at h2
          rw [hkz]
          rw [h2, lookup_applyOp_put_self]
        · have h2 := ihres.2.1
          rw [if_neg (by omega)] at h2
          rw [show c + m + ((ts.filter (fun u => u.Recipient = t.Recipient)).length + 1) =
            c + (m + 1) + (ts.filter (fun u => u.Recipient = t.Recipient)).length by omega]
          exact h2
      · intro n hn
        rw [ihres.2.2 n (by omega)]
        rw [lookup_applyOp_ns_ne _ _ (by simp only [opTarget]; decide)]
        rw [lookup_applyOp_pine_ne' _ _ _ _ (target_ne_of_key
          (fun he => absurd (entry_key_seq_inj hcm64 (by omega) he) (by omega)))]
        rw [hpre]
    · have hfilter : ((t :: ts).filter (fun u => u.Recipient = A)) =
          ts.filter (fun u => u.Recipient = A) := by
        rw [List.filter_cons_of_neg]
        simp [ht]
      unfold txOps
      dsimp only
      rw [List.cons_append, List.cons_append, List.cons_append, List.singleton_append]
      rw [applyBatch_cons, applyBatch_cons, applyBatch_cons, applyBatch_cons]
      have hkeep : ∀ (s : Store) (n : Nat),
          ((applyOp (applyOp (applyOp (applyOp s
            (BatchOp.putIfNotExists blockAddressTransferMappingNS
              (transferFromPrefixBytes ++ strBytes t.Sender ++ uint64ToBytes
                (match sd t.Sender with
                  | some delta => (getTransferCountBySenderAddress dao t.Sender).1 + delta
                  | none => (getTransferCountBySenderAddress dao t.Sender).1)) t.hash))
            (BatchOp.put blockAddressTransferCountMappingNS
              (transferFromPrefixBytes ++ strBytes t.Sender) (uint64ToBytes
                ((match sd t.Sender with
                  | some delta => (getTransferCountBySenderAddress dao t.Sender).1 + delta
                  | none => (getTransferCountBySenderAddress dao t.Sender).1) + 1))))
            (BatchOp.putIfNotExists blockAddressTransferMappingNS
              (transferToPrefixBytes ++ strBytes t.Recipient ++ uint64ToBytes
                (match rd t.Recipient with
                  | some delta => (getTransferCountByRecipientAddress dao t.Recipient).1 + delta
                  | none => (getTransferCountByRecipientAddress dao t.Recipient).1)) t.hash))
            (BatchOp.put blockAddressTransferCountMappingNS
              (transferToPrefixBytes ++ strBytes t.Recipient) (uint64ToBytes
                ((match rd t.Recipient with
                  | some delta => (getTransferCountByRecipientAddress dao t.Recipient).1 + delta
                  | none => (getTransferCountByRecipientAddress dao t.Recipient).1) + 1)))).lookup
            blockAddressTransferMappingNS
            (transferToPrefixBytes ++ strBytes A ++ uint64ToBytes n)) =
          s.lookup blockAddressTransferMappingNS
            (transferToPrefixBytes ++ strBytes A ++ uint64ToBytes n) := by
        intro s n
        rw [lookup_applyOp_ns_ne _ _ (by simp only [opTarget]; decide),
          lookup_applyOp_pine_ne' _ _ _ _
            (target_ne_of_key (fun he => ht (entry_key_addr_inj he))),
          lookup_applyOp_ns_ne _ _ (by simp only [opTarget]; decide),
          lookup_applyOp_pine_ne' _ _ _ _
            (target_ne_of_key (from_to_entry_ne _ _ _ _))]
      have hkeepc : ∀ (s : Store),
          ((applyOp (applyOp (applyOp (applyOp s
            (BatchOp.putIfNotExists blockAddressTransferMappingNS
              (transferFromPrefixBytes ++ strBytes t.Sender ++ uint64ToBytes
                (match sd t.Sender with
                  | some delta => (getTransferCountBySenderAddress dao t.Sender).1 + delta
                  | none => (getTransferCountBySenderAddress dao t.Sender).1)) t.hash))
            (BatchOp.put blockAddressTransferCountMappingNS
              (transferFromPrefixBytes ++ strBytes t.Sender) (uint64ToBytes
                ((match sd t.Sender with
                  | some delta => (getTransferCountBySenderAddress dao t.Sender).1 + delta
                  | none => (getTransferCountBySenderAddress dao t.Sender).1) + 1))))
            (BatchOp.putIfNotExists blockAddressTransferMappingNS
              (transferToPrefixBytes ++ strBytes t.Recipient ++ uint64ToBytes
                (match rd t.Recipient with
                  | some delta => (getTransferCountByRecipientAddress dao t.Recipient).1 + delta
                  | none => (getTransferCountByRecipientAddress dao t.Recipient).1)) t.hash))
            (BatchOp.put blockAddressTransferCountMappingNS
              (transferToPrefixBytes ++ strBytes t.Recipient) (uint64ToBytes
                ((match rd t.Recipient with
                  | some delta => (getTransferCountByRecipientAddress dao t.Recipient).1 + delta
                  | none => (getTransferCountByRecipientAddress dao t.Recipient).1) + 1)))).lookup
            blockAddressTransferCountMappingNS
            (transferToPrefixBytes ++ strBytes A)) =
          s.lookup blockAddressTransferCountMappingNS
            (transferToPrefixBytes ++ strBytes A) := by
        intro s
        rw [lookup_applyOp_put_ne' _ _ _ _
            (target_ne_of_key (fun he => ht (count_key_inj he))),
          lookup_applyOp_ns_ne _ _ (by simp only [opTarget]; decide),
          lookup_applyOp_put_ne' _ _ _ _
            (target_ne_of_key (from_to_count_ne _ _)),
          lookup_applyOp_ns_ne _ _ (by simp only [opTarget]; decide)]
      have hrd' : (fun x => if x = t.Recipient then
          (match rd t.Recipient with
            | some delta => some (delta + 1)
            | none => some 1)
          else rd x) A = (if m = 0 then none else some m) := by
        dsimp only
        rw [if_neg (show ¬(A = t.Recipient) from fun h => ht h.symm)]
        exact hrd
      have hb' : c + m + (ts.filter (fun u => u.Recipient = A)).length < 2 ^ 64 := by
        rw [hfilter] at hb
        exact hb
      have ihres := ih
        (fun x => if x = t.Sender then
          (match sd t.Sender with
            | some delta => some (delta + 1)
            | none => some 1)
          else sd x)
        (fun x => if x = t.Recipient then
          (match rd t.Recipient with
            | some delta => some (delta + 1)
            | none => some 1)
          else rd x)
        (applyOp (applyOp (applyOp (applyOp S0
          (BatchOp.putIfNotExists blockAddressTransferMappingNS
            (transferFromPrefixBytes ++ strBytes t.Sender ++ uint64ToBytes
              (match sd t.Sender with
                | some delta => (getTransferCountBySenderAddress dao t.Sender).1 + delta
                | none => (getTransferCountBySenderAddress dao t.Sender).1)) t.hash))
          (BatchOp.put blockAddressTransferCountMappingNS
            (transferFromPrefixBytes ++ strBytes t.Sender) (uint64ToBytes
              ((match sd t.Sender with
                | some delta => (getTransferCountBySenderAddress dao t.Sender).1 + delta
                | none => (getTransferCountBySenderAddress dao t.Sender).1) + 1))))
          (BatchOp.putIfNotExists blockAddressTransferMappingNS
            (transferToPrefixBytes ++ strBytes t.Recipient ++ uint64ToBytes
              (match rd t.Recipient with
                | some delta => (getTransferCountByRecipientAddress dao t.Recipient).1 + delta
                | none => (getTransferCountByRecipientAddress dao t.Recipient).1)) t.hash))
          (BatchOp.put blockAddressTransferCountMappingNS
            (transferToPrefixBytes ++ strBytes t.Recipient) (uint64ToBytes
              ((match rd t.Recipient with
                | some delta => (getTransferCountByRecipientAddress dao t.Recipient).1 + delta
                | none => (getTransferCountByRecipientAddress dao t.Recipient).1) + 1))))
        m hrd' hb' (fun n hn hn64 => by
          rw [hkeep]
          exact hfresh n hn hn64)
      refine ⟨?_, ?_, ?_⟩
      · intro j u hju
        rw [hfilter] at hju
        exact ihres.1 j u hju
      · rw [hfilter]
        rcases Nat.eq_zero_or_pos ((ts.filter (fun u => u.Recipient = A)).length) with hkz | hkp
        · have h2 := ihres.2.1
          rw [hkz, if_pos rfl] at h2
          rw [hkz, if_pos rfl]
          rw [h2, hkeepc]
        · have h2 := ihres.2.1
          rw [if_neg (by omega)] at h2
          rw [if_neg (by omega)]
          exact h2
      · intro n hn
        rw [ihres.2.2 n hn]
        rw [hkeep]

/-- The leading segment of `putBlockBatch` (everything before the
per-address transfer and vote suffixes) never writes into the
per-address transfer namespaces. -/
theorem putBlockPre_not_addrTx (S : Store) (blk : Block) (ser : Bytes) :
    ∀ op ∈ ([BatchOp.putIfNotExists blockNS blk.hash ser,
       BatchOp.put blockHashHeightMappingNS (hashPrefixBytes ++ blk.hash)
         (uint64ToBytes blk.height),
       BatchOp.put blockHashHeightMappingNS (heightPrefixBytes ++ uint64ToBytes blk.height)
         blk.hash]
      ++ (if blk.height > machineUint64 (S.get blockNS topHeightKey).1 then
           [BatchOp.put blockNS topHeightKey (uint64ToBytes blk.height)]
         else [])
      ++ [BatchOp.put blockNS totalTransfersKey
           (uint64ToBytes (machineUint64 (S.get blockNS totalTransfersKey).1 +
             blk.Transfers.length))]
      ++ [BatchOp.put blockNS totalVotesKey
           (uint64ToBytes (machineUint64 (S.get blockNS totalVotesKey).1 + blk.Votes.length))]
      ++ blk.Transfers.map (fun t =>
           BatchOp.put blockTransferBlockMappingNS (transferPrefixBytes ++ t.hash) blk.hash)
      ++ blk.Votes.map (fun v =>
           BatchOp.put blockVoteBlockMappingNS (votePrefixBytes ++ v.hash) blk.hash)),
      (opTarget op).1 ≠ blockAddressTransferMappingNS ∧
      (opTarget op).1 ≠ blockAddressTransferCountMappingNS := by
  intro op hop
  rw [List.mem_append] at hop
  rcases hop with hop | hop
  · rw [List.mem_append] at hop
    rcases hop with hop | hop
    · rw [List.mem_append] at hop
      rcases hop with hop | hop
      · rw [List.mem_append] at hop
        rcases hop with hop | hop
        · rw [List.mem_append] at hop
          rcases hop with hop | hop
          · simp only [List.mem_cons, List.not_mem_nil, or_false] at hop
            rcases hop with rfl | rfl | rfl
            all_goals exact ⟨by simp [opTarget]; decide, by simp [opTarget]; decide⟩
          · by_cases hcond : blk.height > machineUint64 (S.get blockNS topHeightKey).1
            · rw [if_pos hcond] at hop
              simp only [List.mem_singleton] at hop
              subst hop
              exact ⟨by simp [opTarget]; decide, by simp [opTarget]; decide⟩
            · rw [if_neg hcond] at hop
              simp at hop
        · simp only [List.mem_singleton] at hop
          subst hop
          exact ⟨by simp [opTarget]; decide, by simp [opTarget]; decide⟩
      · simp only [List.mem_singleton] at hop
        subst hop
        exact ⟨by simp [opTarget]; decide, by simp [opTarget]; decide⟩
    · rcases List.mem_map.1 hop with ⟨t, _, rfl⟩
      exact ⟨by simp [opTarget]; decide, by simp [opTarget]; decide⟩
  · rcases List.mem_map.1 hop with ⟨v, _, rfl⟩
    exact ⟨by simp [opTarget]; decide, by simp [opTarget]; decide⟩

/-- C5.  Per-address append with in-batch delta tracking: a single
successful `putBlock(B)` writes, for an address `A` that is sender of
`k` transfers of `B` (respectively recipient, address `R`, `k'`
transfers), the `k` transfer hashes at the contiguous distinct sequence
numbers `c, c+1, …, c+k-1` — `c` being the on-disk counter value the
code reads — and leaves the stored per-address counter at `c + k`
(untouched when `k = 0`).  The entries appear in block order: the `j`-th
`A`-sent transfer of the block sits at sequence `c + j`. -/
theorem putBlock_per_address_append (derive : Bytes → Option String) (S : Store)
    (blk : Block) (A R : String) (T V H c cr : Nat)
    (hInv : DaoInv S T V H) (hwf : BlockWF blk) (hvotes : VotesOK derive blk)
    (hc : c = (getTransferCountBySenderAddress S A).1)
    (hcr : cr = (getTransferCountByRecipientAddress S R).1)
    (hb : c + (blk.Transfers.filter (fun t => t.Sender = A)).length < 2 ^ 64)
    (hbr : cr + (blk.Transfers.filter (fun t => t.Recipient = R)).length < 2 ^ 64)
    (hfresh : ∀ n, c ≤ n → n < 2 ^ 64 → S.lookup blockAddressTransferMappingNS
      (transferFromPrefixBytes ++ strBytes A ++ uint64ToBytes n) = none)
    (hfreshr : ∀ n, cr ≤ n → n < 2 ^ 64 → S.lookup blockAddressTransferMappingNS
      (transferToPrefixBytes ++ strBytes R ++ uint64ToBytes n) = none) :
    (putBlock derive S blk true).2 = none ∧
    (∀ j t, (blk.Transfers.filter (fun t => t.Sender = A))[j]? = some t →
      (putBlock derive S blk true).1.lookup blockAddressTransferMappingNS
        (transferFromPrefixBytes ++ strBytes A ++ uint64ToBytes (c + j)) = some t.hash) ∧
    ((putBlock derive S blk true).1.lookup blockAddressTransferCountMappingNS
        (transferFromPrefixBytes ++ strBytes A) =
      if (blk.Transfers.filter (fun t => t.Sender = A)).length = 0 then
        S.lookup blockAddressTransferCountMappingNS (transferFromPrefixBytes ++ strBytes A)
      else some (uint64ToBytes (c + (blk.Transfers.filter (fun t => t.Sender = A)).length))) ∧
    (∀ j t, (blk.Transfers.filter (fun t => t.Recipient = R))[j]? = some t →
      (putBlock derive S blk true).1.lookup blockAddressTransferMappingNS
        (transferToPrefixBytes ++ strBytes R ++ uint64ToBytes (cr + j)) = some t.hash) ∧
    ((putBlock derive S blk true).1.lookup blockAddressTransferCountMappingNS
        (transferToPrefixBytes ++ strBytes R) =
      if (blk.Transfers.filter (fun t => t.Recipient = R)).length = 0 then
        S.lookup blockAddressTransferCountMappingNS (transferToPrefixBytes ++ strBytes R)
      else some (uint64ToBytes (cr + (blk.Transfers.filter (fun t => t.Recipient = R)).length))) := by
  obtain ⟨hf, hne, hT, hT64, hV, hV64, hH, hH64⟩ := hInv
  obtain ⟨hlen, hserS, hserNE, hh64, hth, hvh⟩ := hwf
  obtain ⟨ser, hser⟩ := Option.isSome_iff_exists.1 hserS
  have hok := putBlock_ok derive S blk ser hne hser hf
    (by rw [hH]; rfl) (by rw [hT]; rfl) (by rw [hV]; rfl) hvotes
  rw [hok]
  -- decompose the batch application into the three segments
  have happ : applyBatch S (putBlockBatch derive S blk ser) =
      applyBatch (applyBatch (applyBatch S
        ([BatchOp.putIfNotExists blockNS blk.hash ser,
          BatchOp.put blockHashHeightMappingNS (hashPrefixBytes ++ blk.hash)
            (uint64ToBytes blk.height),
          BatchOp.put blockHashHeightMappingNS (heightPrefixBytes ++ uint64ToBytes blk.height)
            blk.hash]
         ++ (if blk.height > machineUint64 (S.get blockNS topHeightKey).1 then
              [BatchOp.put blockNS topHeightKey (uint64ToBytes blk.height)]
            else [])
         ++ [BatchOp.put blockNS totalTransfersKey
              (uint64ToBytes (machineUint64 (S.get blockNS totalTransfersKey).1 +
                blk.Transfers.length))]
         ++ [BatchOp.put blockNS totalVotesKey
              (uint64ToBytes (machineUint64 (S.get blockNS totalVotesKey).1 +
                blk.Votes.length))]
         ++ blk.Transfers.map (fun t =>
              BatchOp.put blockTransferBlockMappingNS (transferPrefixBytes ++ t.hash) blk.hash)
         ++ blk.Votes.map (fun v =>
              BatchOp.put blockVoteBlockMappingNS (votePrefixBytes ++ v.hash) blk.hash)))
        (txOps S blk.Transfers (fun _ => none) (fun _ => none)))
        (voteOps derive S blk.Votes (fun _ => none) (fun _ => none)) := by
    unfold putBlockBatch
    rw [applyBatch_append, applyBatch_append]
  rw [happ]
  -- the pre-segment leaves the per-address transfer namespaces alone
  have hpre_tx : ∀ key : Bytes,
      (applyBatch S
        ([BatchOp.putIfNotExists blockNS blk.hash ser,
          BatchOp.put blockHashHeightMappingNS (hashPrefixBytes ++ blk.hash)
            (uint64ToBytes blk.height),
          BatchOp.put blockHashHeightMappingNS (heightPrefixBytes ++ uint64ToBytes blk.height)
            blk.hash]
         ++ (if blk.height > machineUint64 (S.get blockNS topHeightKey).1 then
              [BatchOp.put blockNS topHeightKey (uint64ToBytes blk.height)]
            else [])
         ++ [BatchOp.put blockNS totalTransfersKey
              (uint64ToBytes (machineUint64 (S.get blockNS totalTransfersKey).1 +
                blk.Transfers.length))]
         ++ [BatchOp.put blockNS totalVotesKey
              (uint64ToBytes (machineUint64 (S.get blockNS totalVotesKey).1 +
                blk.Votes.length))]
         ++ blk.Transfers.map (fun t =>
              BatchOp.put blockTransferBlockMappingNS (transferPrefixBytes ++ t.hash) blk.hash)
         ++ blk.Votes.map (fun v =>
              BatchOp.put blockVoteBlockMappingNS (votePrefixBytes ++ v.hash) blk.hash))).lookup
        blockAddressTransferMappingNS key = S.lookup blockAddressTransferMappingNS key :=
    fun key => lookup_applyBatch_ne _ _ (fun op hop =>
      ne_target_of_ns (putBlockPre_not_addrTx S blk ser op hop).1)
  have hpre_cnt : ∀ key : Bytes,
      (applyBatch S
        ([BatchOp.putIfNotExists blockNS blk.hash ser,
          BatchOp.put blockHashHeightMappingNS (hashPrefixBytes ++ blk.hash)
            (uint64ToBytes blk.height),
          BatchOp.put blockHashHeightMappingNS (heightPrefixBytes ++ uint64ToBytes blk.height)
            blk.hash]
         ++ (if blk.height > machineUint64 (S.get blockNS topHeightKey).1 then
              [BatchOp.put blockNS topHeightKey (uint64ToBytes blk.height)]
            else [])
         ++ [BatchOp.put blockNS totalTransfersKey
              (uint64ToBytes (machineUint64 (S.get blockNS totalTransfersKey).1 +
                blk.Transfers.length))]
         ++ [BatchOp.put blockNS totalVotesKey
              (uint64ToBytes (machineUint64 (S.get blockNS totalVotesKey).1 +
                blk.Votes.length))]
         ++ blk.Transfers.map (fun t =>
              BatchOp.put blockTransferBlockMappingNS (transferPrefixBytes ++ t.hash) blk.hash)
         ++ blk.Votes.map (fun v =>
              BatchOp.put blockVoteBlockMappingNS (votePrefixBytes ++ v.hash) blk.hash))).lookup
        blockAddressTransferCountMappingNS key =
      S.lookup blockAddressTransferCountMappingNS key :=
    fun key => lookup_applyBatch_ne _ _ (fun op hop =>
      ne_target_of_ns (putBlockPre_not_addrTx S blk ser op hop).2)
  -- the vote segment leaves them alone too
  have hvote_tx : ∀ (s : Store) (key : Bytes),
      (applyBatch s (voteOps derive S blk.Votes (fun _ => none) (fun _ => none))).lookup
        blockAddressTransferMappingNS key = s.lookup blockAddressTransferMappingNS key :=
    fun s key => lookup_applyBatch_ne _ _ (fun op hop => ne_target_of_ns (by
      rcases voteOps_ns derive S _ _ _ op hop with h | h
      all_goals rw [h]
      all_goals decide))
  have hvote_cnt : ∀ (s : Store) (key : Bytes),
      (applyBatch s (voteOps derive S blk.Votes (fun _ => none) (fun _ => none))).lookup
        blockAddressTransferCountMappingNS key =
      s.lookup blockAddressTransferCountMappingNS key :=
    fun s key => lookup_applyBatch_ne _ _ (fun op hop => ne_target_of_ns (by
      rcases voteOps_ns derive S _ _ _ op hop with h | h
      all_goals rw [h]
      all_goals decide))
  -- apply the two per-address effect lemmas at delta 0
  have hsender := txOps_sender_effect S A c hc blk.Transfers
    (fun _ => none) (fun _ => none) _ 0 (by simp)
    (by omega) (fun n hn hn64 => by rw [hpre_tx]; exact hfresh n (by omega) hn64)
  have hrecipient := txOps_recipient_effect S R cr hcr blk.Transfers
    (fun _ => none) (fun _ => none) _ 0 (by simp)
    (by omega) (fun n hn hn64 => by rw [hpre_tx]; exact hfreshr n (by omega) hn64)
  refine ⟨rfl, ?_, ?_, ?_, ?_⟩
  · intro j t hjt
    rw [hvote_tx]
    exact hsender.1 j t hjt
  · rw [hvote_cnt]
    have h2 := hsender.2.1
    rw [hpre_cnt] at h2
    exact h2
  · intro j t hjt
    rw [hvote_tx]
    exact hrecipient.1 j t hjt
  · rw [hvote_cnt]
    have h2 := hrecipient.2.1
    rw [hpre_cnt] at h2
    exact h2

theorem lookupKV_of_ns_notin (l : List ((String × Bytes) × Bytes)) (ns : String) (key : Bytes)
    (h : ∀ e ∈ l, e.1.1 ≠ ns) : lookupKV l ns key = none := by
  induction l with
  | nil => rfl
  | cons e rest ih =>
    obtain ⟨⟨ns0, k0⟩, v⟩ := e
    simp only [lookupKV]
    rw [if_neg (fun he => h ((ns0, k0), v) (List.mem_cons_self _ _)
      (by simpa using congrArg Prod.fst he))]
    exact ih (fun e he2 => h e (List.mem_cons_of_mem _ he2))

theorem startedStore_lookup_addr (ns : String) (key : Bytes) (hns : blockNS ≠ ns) :
    startedStore.lookup ns key = none := by
  apply lookupKV_of_ns_notin
  intro e he
  have h1 : e.1.1 = blockNS := by
    revert he
    revert e
    decide
  rw [h1]
  exact fun hh => hns hh

/-- Witness for C5 at the claim's own example: a fresh store receives a
block with two transfers from sender "a"; the two hashes land at
sequences 0 and 1, the sender counter ends at 2, and on the recipient
side "b" receives its transfer at sequence 0 with counter 1. -/
theorem putBlock_per_address_append_witness :
    (putBlock exDerive startedStore exB2 true).2 = none ∧
      (putBlock exDerive startedStore exB2 true).1.lookup blockAddressTransferMappingNS
        (transferFromPrefixBytes ++ strBytes "a" ++ uint64ToBytes 0) = some exT1.hash ∧
      (putBlock exDerive startedStore exB2 true).1.lookup blockAddressTransferMappingNS
        (transferFromPrefixBytes ++ strBytes "a" ++ uint64ToBytes 1) = some exT2.hash ∧
      (putBlock exDerive startedStore exB2 true).1.lookup blockAddressTransferCountMappingNS
        (transferFromPrefixBytes ++ strBytes "a") = some (uint64ToBytes 2) ∧
      (putBlock exDerive startedStore exB2 true).1.lookup blockAddressTransferMappingNS
        (transferToPrefixBytes ++ strBytes "b" ++ uint64ToBytes 0) = some exT1.hash ∧
      (putBlock exDerive startedStore exB2 true).1.lookup blockAddressTransferCountMappingNS
        (transferToPrefixBytes ++ strBytes "b") = some (uint64ToBytes 1) := by
  have h := putBlock_per_address_append exDerive startedStore exB2 "a" "b" 0 0 0 0 0
    (by decide) (by decide) (by decide) (by decide) (by decide) (by decide) (by decide)
    (fun n _ _ => startedStore_lookup_addr _ _ (by decide))
    (fun n _ _ => startedStore_lookup_addr _ _ (by decide))
  have h2 := h.2.2.1
  rw [if_neg (by decide)] at h2
  have h3 := h.2.2.2.2
  rw [if_neg (by decide)] at h3
  exact ⟨h.1, h.2.1 0 exT1 (by decide), h.2.1 1 exT2 (by decide), h2,
    h.2.2.2.1 0 exT1 (by decide), h3⟩
